import Mathlib

/-
Verification of the real-time messaging coordination layer of the
voyatek-assessment backend: a shallow embedding, in Lean 4, of the
validation/sanitization service, the sliding-window rate limiter, the
message-receipt ledger, the presence tracker, and the socket gateway's
authentication middleware and send_message handler, together with proofs
of the behavioural properties claimed for them.

Conventions of the embedding:
- JavaScript strings are Lean `String`s (lists of `Char`); the whitespace
  class of the regexes `\s` and of `String.prototype.trim` is modelled by
  `isJsWhitespace`, which enumerates the JavaScript whitespace code points.
- `null`/`undefined` inputs are modelled with `Option`.
- Timestamps (`Date.now()`, `new Date()`, ISO strings) are integers.
- The Redis-backed state touched by an operation is passed in and returned
  explicitly; a Redis sorted set is a list of (score, member) pairs, a
  TTL read is an `Int` (−2 missing key, −1 no expiry, otherwise seconds).
- The relational store is a `Store` record of row lists mirroring the
  Prisma tables the services query.
-/

set_option maxRecDepth 10000

/-! ## Characters and JavaScript string primitives -/

/-- The JavaScript whitespace class: members of the regex class `\s`,
which is also the set trimmed by `String.prototype.trim`. -/
def isJsWhitespace (c : Char) : Bool :=
  c ∈ [' ', '\t', '\n', '\r', '\x0b', '\x0c', '\u00a0', '\u1680',
       '\u2000', '\u2001', '\u2002', '\u2003', '\u2004', '\u2005',
       '\u2006', '\u2007', '\u2008', '\u2009', '\u200a', '\u2028',
       '\u2029', '\u202f', '\u205f', '\u3000', '\ufeff']

/-- One pass of `.replace(/\s+/g, ' ')`: each maximal run of whitespace
characters becomes a single space. The flag records whether the previous
character was inside a whitespace run. -/
def collapseWsAux (inRun : Bool) : List Char → List Char
  | [] => []
  | c :: cs =>
    if isJsWhitespace c then
      if inRun then collapseWsAux true cs
      else ' ' :: collapseWsAux true cs
    else c :: collapseWsAux false cs

/-- `.replace(/\s+/g, ' ')`. -/
def collapseWs (l : List Char) : List Char := collapseWsAux false l

/-- `String.prototype.trim`: strip leading and trailing whitespace. -/
def trimChars (l : List Char) : List Char :=
  (l.dropWhile isJsWhitespace).rdropWhile isJsWhitespace

/-- `.replace(/\n{3,}/g, '\n\n')` with explicit fuel (each step consumes at
least one character, so fuel = length suffices). -/
def collapseNewlinesF : Nat → List Char → List Char
  | 0, l => l
  | _ + 1, [] => []
  | fuel + 1, c :: cs =>
    if c = '\n' then
      let k := (cs.takeWhile (fun d => d = '\n')).length
      (if 3 ≤ k + 1 then ['\n', '\n'] else List.replicate (k + 1) '\n')
        ++ collapseNewlinesF fuel (cs.drop k)
    else c :: collapseNewlinesF fuel cs

/-- `.replace(/\n{3,}/g, '\n\n')`. -/
def collapseNewlines (l : List Char) : List Char := collapseNewlinesF l.length l

/-- Case-insensitive match of one pattern character (patterns are written in
lowercase; an uppercase ASCII letter matches its lowercase form). -/
def matchesCI (p a : Char) : Bool :=
  a = p || ('a' ≤ p && p ≤ 'z' && a.toNat + 32 = p.toNat)

/-- Case-insensitive prefix test against a lowercase pattern. -/
def prefixCI : List Char → List Char → Bool
  | [], _ => true
  | _ :: _, [] => false
  | p :: ps, a :: as_ => matchesCI p a && prefixCI ps as_

/-- Index of the first position where the lowercase pattern matches
case-insensitively, as the regex engine's left-to-right scan finds it. -/
def findCI (pat : List Char) : List Char → Option Nat
  | [] => if prefixCI pat [] then some 0 else none
  | c :: cs =>
    if prefixCI pat (c :: cs) then some 0
    else (findCI pat cs).map (· + 1)

/-- `String.prototype.includes`: the pattern occurs contiguously. -/
def containsSub (pat : List Char) : List Char → Bool
  | [] => pat.isEmpty
  | c :: cs => pat.isPrefixOf (c :: cs) || containsSub pat cs

/-- Characters the regex word boundary `\b` counts as word characters. -/
def isWordChar (c : Char) : Bool :=
  ('a' ≤ c && c ≤ 'z') || ('A' ≤ c && c ≤ 'Z') || ('0' ≤ c && c ≤ '9') || c = '_'

/-- Length of the match of `/<script\b[^<]*(?:(?!<\/script>)<[^<]*)*<\/script>/i`
at the head of the input, if any: a literal `<`, then `script` (any case)
followed by a word boundary, extending to the first subsequent
case-insensitive `</script>` (the negative lookahead forbids consuming one,
so backtracking cannot extend past it; with no closing tag there is no
match at this position). -/
def matchScriptLen : List Char → Option Nat
  | [] => none
  | c :: cs =>
    if c = '<' then
      if prefixCI ['s', 'c', 'r', 'i', 'p', 't'] cs then
        let rest := cs.drop 6
        let boundaryOk :=
          match rest with
          | [] => true
          | r :: _ => !isWordChar r
        if boundaryOk then
          (findCI ['<', '/', 's', 'c', 'r', 'i', 'p', 't', '>'] rest).map
            (fun i => 7 + i + 9)
        else none
      else none
    else none

/-- `.replace(/<script\b[^<]*(?:(?!<\/script>)<[^<]*)*<\/script>/gi, '')`:
global scan, resuming after each match, advancing one character on failure. -/
def removeScriptsF : Nat → List Char → List Char
  | 0, l => l
  | _ + 1, [] => []
  | fuel + 1, c :: cs =>
    match matchScriptLen (c :: cs) with
    | some n => removeScriptsF fuel ((c :: cs).drop n)
    | none => c :: removeScriptsF fuel cs

/-- Strip `<script>…</script>` blocks. -/
def removeScripts (l : List Char) : List Char := removeScriptsF l.length l

/-- `.replace(/<[^>]*>/g, '')`: from each `<`, remove through the first
following `>`; a `<` with no closing `>` stays. -/
def removeTagsF : Nat → List Char → List Char
  | 0, l => l
  | _ + 1, [] => []
  | fuel + 1, c :: cs =>
    if c = '<' then
      match cs.findIdx? (fun d => d = '>') with
      | some j => removeTagsF fuel (cs.drop (j + 1))
      | none => c :: removeTagsF fuel cs
    else c :: removeTagsF fuel cs

/-- Strip HTML tags. -/
def removeTags (l : List Char) : List Char := removeTagsF l.length l

/-! ## ValidationService -/

structure ValidationResult where
  isValid : Bool
  errors : List String
deriving DecidableEq, Repr

structure MessageValidationOptions where
  minLength : Nat
  maxLength : Nat
  allowEmptyLines : Bool
  allowOnlyWhitespace : Bool
  blockedWords : List String
  maxConsecutiveChars : Nat
deriving DecidableEq, Repr

/-- The service's `DEFAULT_MESSAGE_OPTIONS`. -/
def defaultMessageOptions : MessageValidationOptions :=
  { minLength := 1, maxLength := 2000, allowEmptyLines := false,
    allowOnlyWhitespace := false, blockedWords := [],
    maxConsecutiveChars := 10 }

/-- Loop of `hasExcessiveConsecutiveChars`: walk the characters carrying the
previous character and the current run length. -/
def consecAux (maxC : Nat) : Option Char → Nat → List Char → Bool
  | _, _, [] => false
  | prev, cnt, c :: cs =>
    match prev with
    | some p =>
      if c = p then
        if cnt + 1 > maxC then true else consecAux maxC (some p) (cnt + 1) cs
      else consecAux maxC (some c) 1 cs
    | none => consecAux maxC (some c) 1 cs

/-- `hasExcessiveConsecutiveChars(message, maxConsecutive)`. -/
def hasExcessiveConsecutiveChars (msg : List Char) (maxC : Nat) : Bool :=
  consecAux maxC none 1 msg

/-- ASCII lowercasing, the effect of `toLowerCase` on the ASCII range. -/
def lowerChar (c : Char) : Char :=
  if 'A' ≤ c && c ≤ 'Z' then Char.ofNat (c.toNat + 32) else c

def lowerList (l : List Char) : List Char := l.map lowerChar

/-- `String.prototype.split(/\s+/)`: tokens between maximal whitespace runs,
with an empty leading (resp. trailing) token when the string starts
(resp. ends) with whitespace, and `[""]` for the empty string. -/
def splitWsAux (prevWs : Bool) : List Char → List Char → List (List Char)
  | [], acc => [acc.reverse]
  | c :: cs, acc =>
    if isJsWhitespace c then
      if prevWs then splitWsAux true cs acc
      else acc.reverse :: splitWsAux true cs []
    else splitWsAux false cs (c :: acc)

def splitWs (l : List Char) : List (List Char) := splitWsAux false l []

def capsCount (msg : List Char) : Nat :=
  (msg.filter (fun c => 'A' ≤ c && c ≤ 'Z')).length

/-- Membership in the punctuation class
`[!@#$%^&*()_+\-=\[\]{};':"\\|,.<>\/?]`. -/
def isPunctChar (c : Char) : Bool :=
  c ∈ ['!', '@', '#', '$', '%', '^', '&', '*', '(', ')', '_', '+', '-', '=',
       '[', ']', '\x7b', '\x7d', ';', '\'', ':', '"', '\\', '|', ',', '.',
       '<', '>', '/', '?']

def punctCount (msg : List Char) : Nat := (msg.filter isPunctChar).length

/-- `isLikelySpam(message)`. The two ratio tests `ratio > 0.7` and
`ratio > 0.3` are modelled by the exact rational comparisons
`10·count > 7·len` and `10·count > 3·len`; for the message lengths the
validator admits these agree with the IEEE-double comparisons the
JavaScript engine performs. -/
def isLikelySpam (msg : List Char) : Bool :=
  let words := splitWs (lowerList msg)
  if words.any (fun w => 5 < words.count w) && words.length < 50 then true
  else if 10 * capsCount msg > 7 * msg.length && msg.length > 10 then true
  else if 10 * punctCount msg > 3 * msg.length && msg.length > 10 then true
  else false

/-- `findBlockedWords(message, blockedWords)`. -/
def findBlockedWords (msg : List Char) (blockedWords : List String) : List String :=
  blockedWords.filter (fun w => containsSub (lowerList w.data) (lowerList msg))

/-- `validateMessage(content, options)`: each failed check appends one
descriptive error; the result is valid iff no error accumulated. A `none`
content models the `null`/`undefined` early return. -/
def validateMessage (content : Option String) (opts : MessageValidationOptions) :
    ValidationResult :=
  match content with
  | none => { isValid := false, errors := ["Message content is required"] }
  | some message =>
    let msg := message.data
    let e1 :=
      if !opts.allowOnlyWhitespace && (trimChars msg).length = 0 then
        ["Message cannot be empty or contain only whitespace"] else []
    let e2 :=
      if (trimChars msg).length < opts.minLength then
        ["Message must be at least " ++ toString opts.minLength ++
          " character(s) long"] else []
    let e3 :=
      if msg.length > opts.maxLength then
        ["Message cannot exceed " ++ toString opts.maxLength ++ " characters"]
      else []
    let e4 :=
      if !opts.allowEmptyLines && containsSub ['\n', '\n'] msg then
        ["Message cannot contain empty lines"] else []
    let e5 :=
      if hasExcessiveConsecutiveChars msg opts.maxConsecutiveChars then
        ["Message cannot have more than " ++ toString opts.maxConsecutiveChars ++
          " consecutive identical characters"] else []
    let e6 :=
      if opts.blockedWords.length > 0 &&
          (findBlockedWords msg opts.blockedWords).length > 0 then
        ["Message contains blocked words"] else []
    let e7 := if isLikelySpam msg then ["Message appears to be spam"] else []
    let errors := e1 ++ e2 ++ e3 ++ e4 ++ e5 ++ e6 ++ e7
    { isValid := errors.isEmpty, errors := errors }

/-- Alphanumeric class of the room-id regex `^[a-zA-Z0-9]+$`. -/
def isAlnumChar (c : Char) : Bool :=
  ('a' ≤ c && c ≤ 'z') || ('A' ≤ c && c ≤ 'Z') || ('0' ≤ c && c ≤ '9')

/-- `validateRoomId(roomId)`: `none` models a non-string or missing value,
`some ""` the falsy empty string; otherwise the length-7 and the
all-alphanumeric checks each contribute an error. -/
def validateRoomId (roomId : Option String) : ValidationResult :=
  match roomId with
  | none => { isValid := false, errors := ["Room ID is required and must be a string"] }
  | some r =>
    if r = "" then
      { isValid := false, errors := ["Room ID is required and must be a string"] }
    else
      let e1 := if r.data.length ≠ 7 then ["Room ID must be 7 characters long"] else []
      let e2 :=
        if !(!r.data.isEmpty && r.data.all isAlnumChar) then
          ["Room ID must contain only alphanumeric characters"] else []
      let errors := e1 ++ e2
      { isValid := errors.isEmpty, errors := errors }

/-- `sanitizeMessage(content)`: strip null characters, collapse whitespace
runs to single spaces, trim, collapse 3+ newlines to two, strip script
blocks, strip remaining tags. The falsy guard returns `""` unchanged. -/
def sanitizeMessage (content : String) : String :=
  if content = "" then ""
  else
    ⟨removeTags (removeScripts (collapseNewlines (trimChars
        (collapseWs (content.data.filter (fun c => c ≠ '\x00'))))))⟩

/-- `sanitizeMessage` as invoked on a possibly-undefined handler input. -/
def sanitizeMessageOpt (content : Option String) : String :=
  match content with
  | none => ""
  | some s => sanitizeMessage s

/-! ## RateLimiterService

The sorted set behind one rate-limit key `keyPrefix:identifier`. Redis is
modelled per key: `entries` are the (score, member) pairs, `expiresAt` the
absolute millisecond instant after which the key is gone (the `expire`
pipeline step rearms it). A member string `now-rand` is modelled by passing
the `Math.random()` draw in as a nonce. -/

structure RLEntry where
  score : Int
  member : String
deriving DecidableEq, Repr

structure RLState where
  entries : List RLEntry
  expiresAt : Int
deriving DecidableEq, Repr

/-- An absent rate-limit key. -/
def emptyRL : RLState := { entries := [], expiresAt := 0 }

structure RateLimitConfig where
  maxRequests : Nat
  windowSeconds : Nat
deriving DecidableEq, Repr

structure RateLimitResult where
  allowed : Bool
  remaining : Nat
  resetTime : Int
  retryAfter : Option Int
deriving DecidableEq, Repr

/-- `ZADD key score member`: update the score when the member exists,
otherwise insert. -/
def zadd (l : List RLEntry) (score : Int) (member : String) : List RLEntry :=
  if l.any (fun e => e.member = member) then
    l.map (fun e => if e.member = member then { e with score := score } else e)
  else l ++ [{ score := score, member := member }]

/-- `ZREMRANGEBYSCORE key lo hi`. -/
def zremrangebyscore (l : List RLEntry) (lo hi : Int) : List RLEntry :=
  l.filter (fun e => !(lo ≤ e.score && e.score ≤ hi))

/-- `ZREM key member`. -/
def zrem (l : List RLEntry) (member : String) : List RLEntry :=
  l.filter (fun e => e.member ≠ member)

/-- Score returned by `ZRANGE key 0 0 WITHSCORES`: the minimal score in the
set (the code reads only the score of the oldest entry). -/
def minScore? (l : List RLEntry) : Option Int := (l.map (fun e => e.score)).min?

/-- `Math.ceil(x / d)` for integer `x` and positive integer `d`. -/
def jsCeilDiv (x d : Int) : Int := -((-x).fdiv d)

/-- `MESSAGE_RATE_LIMIT` (keyPrefix `rate_limit:messages`; key selection is
outside the per-key state model). -/
def messageRateLimitConfig : RateLimitConfig := { maxRequests := 5, windowSeconds := 10 }

/-- `JOIN_ROOM_RATE_LIMIT` (keyPrefix `rate_limit:join_room`). -/
def joinRoomRateLimitConfig : RateLimitConfig := { maxRequests := 10, windowSeconds := 60 }

/-- `TYPING_RATE_LIMIT` (keyPrefix `rate_limit:typing`). -/
def typingRateLimitConfig : RateLimitConfig := { maxRequests := 20, windowSeconds := 10 }

/-- `checkRateLimit(identifier, config)` against the state of that
identifier's key at time `now` (ms). The pipeline removes entries older
than the window, reads the pre-insert cardinality, adds the marker
`now-nonce`, and rearms the key expiry; on denial the code then issues a
`ZREM` for `now-nonce2` — a second, independent `Math.random()` draw — and
derives `retryAfter` from the oldest surviving score, falling back to the
window length when the set is empty. -/
def checkRateLimit (st : RLState) (cfg : RateLimitConfig) (now : Int)
    (nonce nonce2 : String) : RateLimitResult × RLState :=
  let windowStart := now - cfg.windowSeconds * 1000
  let live := if now < st.expiresAt then st.entries else []
  let afterRemove := zremrangebyscore live 0 windowStart
  let currentCount := afterRemove.length
  let afterAdd := zadd afterRemove now (toString now ++ "-" ++ nonce)
  let expiresAt := now + cfg.windowSeconds * 1000
  let allowed := decide (currentCount < cfg.maxRequests)
  let remaining := cfg.maxRequests - currentCount - (if allowed then 1 else 0)
  let resetTime := now + cfg.windowSeconds * 1000
  if allowed then
    ({ allowed := true, remaining := remaining, resetTime := resetTime,
       retryAfter := none },
     { entries := afterAdd, expiresAt := expiresAt })
  else
    let afterRem2 := zrem afterAdd (toString now ++ "-" ++ nonce2)
    let retryAfter :=
      match minScore? afterRem2 with
      | some oldest => jsCeilDiv (oldest + cfg.windowSeconds * 1000 - now) 1000
      | none => (cfg.windowSeconds : Int)
    ({ allowed := false, remaining := 0, resetTime := resetTime,
       retryAfter := some retryAfter },
     { entries := afterRem2, expiresAt := expiresAt })

/-- One call in a sequence of `checkRateLimit` invocations for a single
identifier: its `Date.now()` and the two `Math.random()` draws. -/
structure RLCall where
  t : Int
  nonce : String
  nonce2 : String
deriving DecidableEq, Repr

/-- The sorted-set member the call's `ZADD` writes. -/
def callMember (c : RLCall) : String := toString c.t ++ "-" ++ c.nonce

/-- Run a sequence of `checkRateLimit` calls, threading the key state. -/
def runCalls (st : RLState) (cfg : RateLimitConfig) :
    List RLCall → List RateLimitResult × RLState
  | [] => ([], st)
  | c :: cs =>
    let r := checkRateLimit st cfg c.t c.nonce c.nonce2
    let rest := runCalls r.2 cfg cs
    (r.1 :: rest.1, rest.2)

/-! ## The relational store -/

structure MemberRow where
  room_id : String
  member_id : String
  deleted_at : Option Int
deriving DecidableEq, Repr

structure UserRow where
  id : String
  username : String
  first_name : String
  last_name : String
deriving DecidableEq, Repr

structure MessageRow where
  id : String
  room_id : String
  sender_id : String
  content : String
  created_at : Int
  deleted_at : Option Int
deriving DecidableEq, Repr

structure ReceiptRow where
  message_id : String
  recipient_id : String
  delivered_at : Int
  read_at : Option Int
deriving DecidableEq, Repr

structure Store where
  users : List UserRow
  roomMembers : List MemberRow
  messages : List MessageRow
  receipts : List ReceiptRow
deriving DecidableEq, Repr

/-- `verifyRoomMembership(userId, roomId)`: an active (non-soft-deleted)
`room_members` row exists. -/
def verifyRoomMembership (db : Store) (userId roomId : String) : Bool :=
  db.roomMembers.any (fun m =>
    m.room_id = roomId && m.member_id = userId && m.deleted_at = none)

/-! ## MessageReceiptsService -/

/-- One row of a `createMany … skipDuplicates` batch: insert unless a row
with the same `(message_id, recipient_id)` unique key already exists. -/
def insertReceiptSkipDup (rows : List ReceiptRow) (r : ReceiptRow) : List ReceiptRow :=
  if rows.any (fun x => x.message_id = r.message_id && x.recipient_id = r.recipient_id)
  then rows
  else rows ++ [r]

/-- `createMany({data, skipDuplicates: true})` on `message_receipts`. -/
def createManySkipDup (rows : List ReceiptRow) (batch : List ReceiptRow) :
    List ReceiptRow :=
  batch.foldl insertReceiptSkipDup rows

/-- `createDeliveryReceipts(messageId, roomId, senderId)`: read the active
members of the room other than the sender; if none, return; re-filter the
ids against the sender defensively; if none remain, return; otherwise bulk
insert one receipt per recipient with skip-duplicates semantics
(`delivered_at` is the store clock default `now`). -/
def createDeliveryReceipts (db : Store) (messageId roomId senderId : String)
    (now : Int) : Store :=
  let roomMembers := db.roomMembers.filter (fun m =>
    m.room_id = roomId && m.member_id ≠ senderId && m.deleted_at = none)
  if roomMembers.length = 0 then db
  else
    let recipientIds := (roomMembers.map (fun m => m.member_id)).filter
      (fun memberId => memberId ≠ senderId)
    if recipientIds.length = 0 then db
    else
      { db with
        receipts := createManySkipDup db.receipts (recipientIds.map (fun rid =>
          { message_id := messageId, recipient_id := rid, delivered_at := now,
            read_at := none })) }

/-- `markAsRead(messageId, userId)`: `updateMany` filtered only by message
and recipient (no read-state constraint) setting `read_at` to the call
time; reports whether any row matched. -/
def markAsRead (db : Store) (messageId userId : String) (now : Int) :
    Store × Bool :=
  let matched := db.receipts.filter (fun x =>
    x.message_id = messageId && x.recipient_id = userId)
  ({ db with
     receipts := db.receipts.map (fun x =>
       if x.message_id = messageId && x.recipient_id = userId then
         { x with read_at := some now }
       else x) },
   decide (matched.length > 0))

/-- `markMultipleAsRead(messageIds, userId)`: `updateMany` additionally
constrained to currently-unread rows (`read_at: null`); returns the number
of rows transitioned. -/
def markMultipleAsRead (db : Store) (messageIds : List String) (userId : String)
    (now : Int) : Store × Nat :=
  let hit := fun (x : ReceiptRow) =>
    messageIds.contains x.message_id && x.recipient_id = userId && x.read_at = none
  ({ db with
     receipts := db.receipts.map (fun x =>
       if hit x then { x with read_at := some now } else x) },
   (db.receipts.filter hit).length)

structure ReadStatusEntry where
  totalRecipients : Nat
  readCount : Nat
  readStatus : String
deriving DecidableEq, Repr

/-- `getMessagesWithReceipts(messageIds)`: per requested message id, the
recipient total, the read count and the derived status string. -/
def getMessagesWithReceipts (db : Store) (messageIds : List String) :
    List (String × ReadStatusEntry) :=
  let receipts := db.receipts.filter (fun r => messageIds.contains r.message_id)
  messageIds.map (fun messageId =>
    let messageReceipts := receipts.filter (fun r => r.message_id = messageId)
    let totalRecipients := messageReceipts.length
    let readCount := (messageReceipts.filter (fun r => r.read_at ≠ none)).length
    (messageId,
     { totalRecipients := totalRecipients, readCount := readCount,
       readStatus :=
         if totalRecipients > 0 then
           if readCount = totalRecipients then "all_read"
           else if readCount > 0 then "partially_read" else "unread"
         else "no_recipients" }))

/-! ## PresenceService -/

/-- A `UserPresence` record as stored (JSON) under `presence:user:{id}`;
the status is the literal string the code compares against. -/
structure PresenceRecord where
  userId : String
  status : String
  lastSeen : Int
  socketId : Option String
deriving DecidableEq, Repr

/-- The cache cell for one user: the parsed record and the remaining TTL
(seconds) Redis would report for its key; `none` is an absent key. -/
def offlineRecord (userId : String) (now : Int) : PresenceRecord :=
  { userId := userId, status := "offline", lastSeen := now, socketId := none }

/-- `setUserOffline(userId)`: write an offline record stamped `now` with the
24-hour last-seen retention TTL. -/
def setUserOffline (userId : String) (now : Int) : PresenceRecord × Int :=
  (offlineRecord userId now, 24 * 60 * 60)

/-- `getUserPresence(userId)` over the user's cache cell at time `now`:
absent key synthesizes offline/now; an online record whose TTL has elapsed
to ≤ 0 is written through as offline (`setUserOffline`) and reported
offline with the previously recorded lastSeen; otherwise the stored record
is returned unchanged. Returns (reported record, cache cell afterwards). -/
def getUserPresence (cache : Option (PresenceRecord × Int)) (userId : String)
    (now : Int) : PresenceRecord × Option (PresenceRecord × Int) :=
  match cache with
  | none => (offlineRecord userId now, none)
  | some (presence, ttl) =>
    if presence.status = "online" then
      if ttl ≤ 0 then
        ({ userId := userId, status := "offline", lastSeen := presence.lastSeen,
           socketId := none },
         some (setUserOffline userId now))
      else (presence, some (presence, ttl))
    else (presence, some (presence, ttl))

/-! ## SocketService: authentication middleware -/

/-- The claims of a decoded access token that the socket middleware reads
(`jwt.verify` is called with `ignoreExpiration: true`, so no `exp` claim
takes part). -/
structure TokenPayload where
  sub : String
  lastLogin : Int
  email : String
  rememberMe : Bool
deriving DecidableEq, Repr

/-- A bearer token: its payload plus the secret it was signed with.
`jwt.verify(token, secret)` succeeds exactly when the signature matches. -/
structure SignedToken where
  payload : TokenPayload
  signedWith : String
deriving DecidableEq, Repr

def jwtVerify (secret : String) (t : SignedToken) : Option TokenPayload :=
  if t.signedWith = secret then some t.payload else none

/-- The connection handshake: `auth.token` and the `Authorization: Bearer`
header (already stripped of its scheme). -/
structure Handshake where
  authToken : Option SignedToken
  headerToken : Option SignedToken
deriving DecidableEq, Repr

/-- `handshake.auth.token || handshake.headers.authorization?.replace(…)`. -/
def handshakeToken (h : Handshake) : Option SignedToken :=
  match h.authToken with
  | some t => some t
  | none => h.headerToken

/-- The server-side session key `users:{sub}:session-{lastLogin}`. -/
def sessionKey (p : TokenPayload) : String :=
  "users:" ++ p.sub ++ ":session-" ++ toString p.lastLogin

structure AuthUser where
  id : String
  email : String
deriving DecidableEq, Repr

/-- `authenticateSocket(socket, secret)` with `sessionTtl` the Redis `TTL`
read of each key: no token, a failed signature verification (the thrown
error is caught) or a negative session TTL yield `null`; otherwise the
session TTL is extended and the authenticated identity returned. -/
def authenticateSocket (secret : String) (h : Handshake)
    (sessionTtl : String → Int) : Option AuthUser :=
  match handshakeToken h with
  | none => none
  | some t =>
    match jwtVerify secret t with
    | none => none
    | some payload =>
      if sessionTtl (sessionKey payload) < 0 then none
      else some { id := payload.sub, email := payload.email }

/-- Connection-scoped effects the gateway performs after the middleware
admits a socket, in order. -/
inductive SocketEffect
  | setUserOnline (userId : String)
  | registerEventHandlers (userId : String)
deriving DecidableEq, Repr

/-- Outcome of the authentication middleware plus the `connection` handler:
a rejected handshake triggers `next(new Error('Unauthorized'))` and nothing
else ever runs for that socket; an admitted one gets `socket.data.user` and
then the presence write and the event-handler registrations. -/
inductive ConnResult
  | rejected (error : String)
  | connected (user : AuthUser) (effects : List SocketEffect)
deriving DecidableEq, Repr

def establishConnection (secret : String) (h : Handshake)
    (sessionTtl : String → Int) : ConnResult :=
  match authenticateSocket secret h sessionTtl with
  | none => ConnResult.rejected "Unauthorized"
  | some u =>
    ConnResult.connected u
      [SocketEffect.setUserOnline u.id, SocketEffect.registerEventHandlers u.id]

/-! ## SocketService: send_message handler -/

/-- The `send_message` payload; each field may be missing. -/
structure SendData where
  roomId : Option String
  content : Option String
deriving DecidableEq, Repr

/-- Socket-local state the handler consults. -/
structure SocketCtx where
  sockId : String
  currentRoomId : Option String
deriving DecidableEq, Repr

/-- Emissions of the send_message handler: a `message_error` back to the
sender's socket, or a `receive_message` broadcast to every subscriber of
the room channel (`io.to(roomId)`), the sender's own socket included when
it has joined that channel. -/
inductive SendEmit
  | messageError (message : String) (errors : List String)
      (retryAfter : Option Int) (remaining : Option Nat)
  | receiveMessage (roomId : String) (id : String) (room_id : String)
      (content : String) (timestamp : Int) (sender : UserRow)
deriving DecidableEq, Repr

/-- The checks of the send_message handler that run after the rate-limit
gate, in source order; they are pure reads. Returns the error emission of
the first failed check, or the validated room id and sanitized content. -/
def sendMessageChecks (db : Store) (sock : SocketCtx) (user : AuthUser)
    (data : Option SendData) : Except SendEmit (String × String) :=
  let roomId := match data with | none => none | some d => d.roomId
  let content := match data with | none => none | some d => d.content
  match roomId with
  | none => Except.error (SendEmit.messageError "Room ID is required" [] none none)
  | some r =>
    if r = "" then
      Except.error (SendEmit.messageError "Room ID is required" [] none none)
    else
      let roomValidation := validateRoomId (some r)
      if !roomValidation.isValid then
        Except.error (SendEmit.messageError "Invalid room ID format"
          roomValidation.errors none none)
      else
        let messageValidation := validateMessage content defaultMessageOptions
        if !messageValidation.isValid then
          Except.error (SendEmit.messageError "Invalid message content"
            messageValidation.errors none none)
        else
          let sanitizedContent := sanitizeMessageOpt content
          if sanitizedContent = "" then
            Except.error (SendEmit.messageError
              "Message content cannot be empty after sanitization" [] none none)
          else if sock.currentRoomId ≠ some r then
            Except.error (SendEmit.messageError
              "You must join the room before sending messages" [] none none)
          else if !verifyRoomMembership db user.id r then
            Except.error (SendEmit.messageError
              "You are not a member of this room" [] none none)
          else Except.ok (r, sanitizedContent)

/-- The `send_message` handler: rate-limit gate (threading the sender's
message-rate key), the check cascade, then the message insert (whose
`select` joins the sender row — a missing sender makes the insert throw,
landing in the catch that emits the generic failure), the delivery-receipt
creation and the room broadcast. `newMessageId` is the id the store mints
for the insert. Returns the store, the rate-limit key state and the
emissions. -/
def handleSendMessage (db : Store) (rl : RLState) (sock : SocketCtx)
    (user : AuthUser) (data : Option SendData) (now : Int)
    (nonce nonce2 : String) (newMessageId : String) :
    Store × RLState × List SendEmit :=
  let rlCheck := checkRateLimit rl messageRateLimitConfig now nonce nonce2
  let rlResult := rlCheck.1
  let rl' := rlCheck.2
  if !rlResult.allowed then
    (db, rl',
     [SendEmit.messageError
        ("Rate limit exceeded. You can send " ++
          toString messageRateLimitConfig.maxRequests ++ " messages per " ++
          toString messageRateLimitConfig.windowSeconds ++ " seconds.")
        [] rlResult.retryAfter (some rlResult.remaining)])
  else
    match sendMessageChecks db sock user data with
    | Except.error e => (db, rl', [e])
    | Except.ok (roomId, sanitizedContent) =>
      match db.users.find? (fun u => u.id = user.id) with
      | none =>
        (db, rl', [SendEmit.messageError "Failed to send message" [] none none])
      | some senderRow =>
        let message : MessageRow :=
          { id := newMessageId, room_id := roomId, sender_id := user.id,
            content := sanitizedContent, created_at := now, deleted_at := none }
        let db1 := { db with messages := db.messages ++ [message] }
        let db2 := createDeliveryReceipts db1 newMessageId roomId user.id now
        (db2, rl',
         [SendEmit.receiveMessage roomId message.id message.room_id
            message.content message.created_at senderRow])

/-! ## Proof-level vocabulary -/

/-- Number of receipt rows carrying a given `(message_id, recipient_id)`
unique key. -/
def pairCount (rows : List ReceiptRow) (mid rid : String) : Nat :=
  (rows.filter (fun x => x.message_id = mid && x.recipient_id = rid)).length

/-- The recipient ids `createDeliveryReceipts` computes: ids of active
members of the room other than the sender, re-filtered against the sender. -/
def deliveryRecipients (db : Store) (roomId senderId : String) : List String :=
  ((db.roomMembers.filter (fun m =>
      m.room_id = roomId && m.member_id ≠ senderId && m.deleted_at = none)).map
    (fun m => m.member_id)).filter (fun memberId => memberId ≠ senderId)

/-- The receipt batch `createDeliveryReceipts` hands to the bulk insert. -/
def deliveryBatch (db : Store) (messageId roomId senderId : String) (now : Int) :
    List ReceiptRow :=
  (deliveryRecipients db roomId senderId).map (fun rid =>
    { message_id := messageId, recipient_id := rid, delivered_at := now,
      read_at := none })

/-- Whitespace-normal lists: every whitespace character is a plain space and
no two whitespace characters are adjacent — the shape `collapseWs` output
has. -/
def NoWsRun (l : List Char) : Prop :=
  (∀ c ∈ l, isJsWhitespace c = true → c = ' ')
  ∧ l.Chain' (fun a b => ¬(isJsWhitespace a = true ∧ isJsWhitespace b = true))

/-- Sockets reached by one emission of the send_message handler, given the
subscriber sets of the room channels: an error goes back to the sender's
socket, a `receive_message` reaches every subscriber of the room. -/
def emitRecipients (senderSockId : String) (subscribers : String → List String) :
    SendEmit → List String
  | SendEmit.messageError _ _ _ _ => [senderSockId]
  | SendEmit.receiveMessage roomId _ _ _ _ _ => subscribers roomId

/-- Specification of the result list of a within-window call sequence,
counting from `k` markers already in the window: while `k` is below the
limit the call is allowed with `remaining = maxRequests − k − 1`, and at
`k = maxRequests` it is denied with `remaining = 0` and a positive
`retryAfter`. -/
def ResultsSpec (cfg : RateLimitConfig) : Nat → List RLCall → List RateLimitResult → Prop
  | _, [], rs => rs = []
  | k, c :: cs, rs =>
    ∃ r rs', rs = r :: rs'
      ∧ (k < cfg.maxRequests →
          r = { allowed := true, remaining := cfg.maxRequests - k - 1,
                resetTime := c.t + cfg.windowSeconds * 1000, retryAfter := none }
          ∧ ResultsSpec cfg (k + 1) cs rs')
      ∧ (k = cfg.maxRequests →
          r.allowed = false ∧ r.remaining = 0
          ∧ (∃ ra, r.retryAfter = some ra ∧ 0 < ra)
          ∧ ResultsSpec cfg (k + 1) cs rs')

/-- The sorted-set image of a call history: one marker per call. -/
def markersOf (hist : List RLCall) : List RLEntry :=
  hist.map (fun c => { score := c.t, member := callMember c })

/-! ## Theorems -/

/-- `validateRoomId` accepts exactly the nonempty 7-character alphanumeric
strings. -/
theorem validateRoomId_isValid_characterization (i : Option String) :
    (validateRoomId i).isValid = true ↔
      ∃ s, i = some s ∧ s ≠ "" ∧ s.data.length = 7 ∧ s.data.all isAlnumChar = true := by
  match i with
  | none => simp [validateRoomId]
  | some s =>
    by_cases hs : s = ""
    · subst hs; simp [validateRoomId]
    · have hd : s.data ≠ [] := by
        intro h
        exact hs (by cases s with | mk d => simpa using congrArg String.mk h)
      constructor
      · intro hv
        refine ⟨s, rfl, hs, ?_, ?_⟩
        all_goals {
          by_contra hcon
          simp only [validateRoomId, if_neg hs] at hv
          rcases h7 : decide (s.data.length = 7) with _ | _ <;>
            rcases ha : s.data.all isAlnumChar with _ | _ <;>
              simp_all [List.isEmpty_iff]
        }
      · rintro ⟨t, ht, -, h7, ha⟩
        cases ht
        simp [validateRoomId, if_neg hs, h7, ha, List.isEmpty_iff, hd]

/-- Invalid room ids always come with at least one error string. -/
theorem validateRoomId_invalid_has_error (i : Option String) :
    (validateRoomId i).isValid = false → (validateRoomId i).errors ≠ [] := by
  match i with
  | none => simp [validateRoomId]
  | some s =>
    by_cases hs : s = ""
    · subst hs; simp [validateRoomId]
    · simp only [validateRoomId, if_neg hs]
      rcases h7 : decide (s.data.length = 7) with _ | _ <;>
        rcases ha : decide (!(!s.data.isEmpty && s.data.all isAlnumChar) = true) with _ | _ <;>
          simp_all

/-- C10. `validateRoomId(id)` returns `isValid = true` exactly when the id
is a truthy string of exactly 7 characters, each in `[a-zA-Z0-9]`; every
other input — including a standard 36-character UUID, the format the
REST-layer DTOs require — yields `isValid = false` together with at least
one descriptive error string. -/
theorem C10_validateRoomId_spec :
    (∀ i : Option String, (validateRoomId i).isValid = true ↔
        ∃ s, i = some s ∧ s ≠ "" ∧ s.data.length = 7 ∧ s.data.all isAlnumChar = true)
    ∧ (∀ i : Option String,
        (validateRoomId i).isValid = false → (validateRoomId i).errors ≠ [])
    ∧ (validateRoomId (some "123e4567-e89b-12d3-a456-426614174000")).isValid = false := by
  refine ⟨validateRoomId_isValid_characterization, validateRoomId_invalid_has_error, ?_⟩
  decide

/-- Witness for C10: applying the specification at a concrete accepted id
and at a concrete rejected id. -/
theorem C10_validateRoomId_spec_witness :
    (validateRoomId (some "abc1234")).isValid = true
    ∧ (validateRoomId (some "ab")).errors ≠ [] := by
  constructor
  · exact (C10_validateRoomId_spec.1 (some "abc1234")).mpr
      ⟨"abc1234", rfl, by decide, by decide, by decide⟩
  · exact C10_validateRoomId_spec.2.1 (some "ab") (by decide)

/-- C7. The `readStatus` computed by `getMessagesWithReceipts` is a pure
function of `(totalRecipients, readCount)`: zero recipients gives
`no_recipients`; a full read count (positive) gives `all_read`; a zero read
count with recipients gives `unread`; a strictly partial read count gives
`partially_read`. -/
theorem C7_getMessagesWithReceipts_readStatus_spec :
    ∀ (db : Store) (messageIds : List String) (mid : String) (e : ReadStatusEntry),
      (mid, e) ∈ getMessagesWithReceipts db messageIds →
        (e.totalRecipients = 0 → e.readStatus = "no_recipients")
        ∧ (0 < e.totalRecipients → e.readCount = e.totalRecipients →
            e.readStatus = "all_read")
        ∧ (0 < e.totalRecipients → e.readCount = 0 → e.readStatus = "unread")
        ∧ (0 < e.readCount → e.readCount < e.totalRecipients →
            e.readStatus = "partially_read") := by
  intro db messageIds mid e hmem
  simp only [getMessagesWithReceipts, List.mem_map] at hmem
  obtain ⟨m, -, hm⟩ := hmem
  rw [Prod.mk.injEq] at hm
  obtain ⟨-, he⟩ := hm
  subst he
  refine ⟨?_, ?_, ?_, ?_⟩ <;> intros <;> dsimp only at * <;>
    split_ifs <;> first | rfl | omega

/-- Witness for C7: the specification applied to a store holding one read
and one unread receipt for a message, which is reported `partially_read`. -/
theorem C7_getMessagesWithReceipts_readStatus_spec_witness :
    ∃ e : ReadStatusEntry,
      ("m1", e) ∈ getMessagesWithReceipts
        { users := [], roomMembers := [], messages := [],
          receipts := [{ message_id := "m1", recipient_id := "r1",
                         delivered_at := 0, read_at := some 1 },
                       { message_id := "m1", recipient_id := "r2",
                         delivered_at := 0, read_at := none }] } ["m1"]
      ∧ e.readStatus = "partially_read" := by
  refine ⟨{ totalRecipients := 2, readCount := 1, readStatus := "partially_read" },
    by decide, ?_⟩
  exact (C7_getMessagesWithReceipts_readStatus_spec
      { users := [], roomMembers := [], messages := [],
        receipts := [{ message_id := "m1", recipient_id := "r1",
                       delivered_at := 0, read_at := some 1 },
                     { message_id := "m1", recipient_id := "r2",
                       delivered_at := 0, read_at := none }] }
      ["m1"] "m1"
      { totalRecipients := 2, readCount := 1, readStatus := "partially_read" }
      (by decide)).2.2.2 (by decide) (by decide)

/-- C8. `getUserPresence`: an absent cache record synthesizes offline with
`lastSeen = now`; an online record whose backing TTL has elapsed to ≤ 0 is
written through as an offline record and reported offline carrying the
previously recorded lastSeen; and the reported status is `online` only when
a stored online record with a strictly positive TTL backs it — callers
never observe a stale online claim. -/
theorem C8_getUserPresence_spec :
    ∀ (userId : String) (now : Int),
      (getUserPresence none userId now = (offlineRecord userId now, none))
      ∧ (∀ (p : PresenceRecord) (ttl : Int), p.status = "online" → ttl ≤ 0 →
          getUserPresence (some (p, ttl)) userId now =
            ({ userId := userId, status := "offline", lastSeen := p.lastSeen,
               socketId := none },
             some (offlineRecord userId now, 24 * 60 * 60)))
      ∧ (∀ cache : Option (PresenceRecord × Int),
          (getUserPresence cache userId now).1.status = "online" →
            ∃ p ttl, cache = some (p, ttl) ∧ p.status = "online" ∧ 0 < ttl ∧
              (getUserPresence cache userId now).1 = p) := by
  intro userId now
  refine ⟨rfl, ?_, ?_⟩
  · intro p ttl hon httl
    simp [getUserPresence, hon, httl, setUserOffline]
  · intro cache hon
    match cache with
    | none =>
      exact absurd hon (by simp [getUserPresence, offlineRecord])
    | some (p, ttl) =>
      refine ⟨p, ttl, rfl, ?_⟩
      by_cases hp : p.status = "online"
      · by_cases ht : ttl ≤ 0
        · exact absurd hon (by simp [getUserPresence, hp, ht])
        · exact ⟨hp, by omega, by simp [getUserPresence, hp, ht]⟩
      · rw [show getUserPresence (some (p, ttl)) userId now = (p, some (p, ttl)) by
          simp [getUserPresence, hp]] at hon
        exact absurd hon hp

/-- Witness for C8: an online record with an elapsed TTL is reported
offline with its old lastSeen and written through. -/
theorem C8_getUserPresence_spec_witness :
    getUserPresence
        (some ({ userId := "u", status := "online", lastSeen := 5,
                 socketId := some "s" }, 0)) "u" 99 =
      ({ userId := "u", status := "offline", lastSeen := 5, socketId := none },
       some ({ userId := "u", status := "offline", lastSeen := 99,
               socketId := none }, 86400)) := by
  have h := (C8_getUserPresence_spec "u" 99).2.1
    { userId := "u", status := "online", lastSeen := 5, socketId := some "s" } 0
    (by decide) (by decide)
  simpa [offlineRecord] using h

/-- C1 as stated is refuted at the TTL boundary: the code rejects only a
strictly negative session TTL (`ttl < 0`), so a handshake whose session key
reports TTL exactly 0 — a non-positive TTL — is accepted, not rejected. -/
theorem C1_socket_auth_counterexample :
    (fun k => if k = "users:u1:session-7" then (0 : Int) else -2)
        (sessionKey { sub := "u1", lastLogin := 7, email := "e@x",
                      rememberMe := false }) = 0
    ∧ establishConnection "secret0"
        { authToken := some { payload := { sub := "u1", lastLogin := 7,
                                           email := "e@x", rememberMe := false },
                              signedWith := "secret0" },
          headerToken := none }
        (fun k => if k = "users:u1:session-7" then (0 : Int) else -2) =
      ConnResult.connected { id := "u1", email := "e@x" }
        [SocketEffect.setUserOnline "u1", SocketEffect.registerEventHandlers "u1"] := by
  constructor <;> rfl

/-- C1 (amended). A socket handshake with no token, a token whose signature
fails verification, or a token whose server-side session key
`users:{sub}:session-{lastLogin}` reports a strictly negative TTL is
rejected with the `Unauthorized` error, before any event handler is
registered and before any presence record is written (a rejected connection
produces no effects); a handshake passing all three checks is accepted with
the authenticated user id attached, after which the presence write and the
handler registrations run. -/
theorem C1_socket_auth_spec :
    ∀ (secret : String) (h : Handshake) (sessionTtl : String → Int),
      (establishConnection secret h sessionTtl = ConnResult.rejected "Unauthorized" ↔
        (handshakeToken h = none ∨
          ∃ t, handshakeToken h = some t ∧
            (jwtVerify secret t = none ∨
              ∃ p, jwtVerify secret t = some p ∧ sessionTtl (sessionKey p) < 0)))
      ∧ (∀ u fx, establishConnection secret h sessionTtl = ConnResult.connected u fx →
          ∃ t p, handshakeToken h = some t ∧ jwtVerify secret t = some p ∧
            0 ≤ sessionTtl (sessionKey p) ∧
            u = { id := p.sub, email := p.email } ∧
            fx = [SocketEffect.setUserOnline p.sub,
                  SocketEffect.registerEventHandlers p.sub]) := by
  intro secret h sessionTtl
  constructor
  · constructor
    · intro hrej
      match ht : handshakeToken h with
      | none => exact Or.inl rfl
      | some t =>
        refine Or.inr ⟨t, rfl, ?_⟩
        match hv : jwtVerify secret t with
        | none => exact Or.inl rfl
        | some p =>
          refine Or.inr ⟨p, rfl, ?_⟩
          by_contra hge
          simp [establishConnection, authenticateSocket, ht, hv,
            if_neg hge] at hrej
    · intro hcases
      rcases hcases with hnone | ⟨t, ht, hv | ⟨p, hv, httl⟩⟩
      · simp [establishConnection, authenticateSocket, hnone]
      · simp [establishConnection, authenticateSocket, ht, hv]
      · simp [establishConnection, authenticateSocket, ht, hv, httl]
  · intro u fx hconn
    match ht : handshakeToken h with
    | none => simp [establishConnection, authenticateSocket, ht] at hconn
    | some t =>
      match hv : jwtVerify secret t with
      | none => simp [establishConnection, authenticateSocket, ht, hv] at hconn
      | some p =>
        by_cases httl : sessionTtl (sessionKey p) < 0
        · simp [establishConnection, authenticateSocket, ht, hv, httl] at hconn
        · refine ⟨t, p, rfl, hv, by omega, ?_⟩
          simp [establishConnection, authenticateSocket, ht, hv, httl] at hconn
          exact ⟨hconn.1.symm, hconn.2.symm⟩

/-- Witness for C1: the specification applied to a tokenless handshake
(rejected) and to a fully valid handshake (accepted). -/
theorem C1_socket_auth_spec_witness :
    establishConnection "s" { authToken := none, headerToken := none }
        (fun _ => -2) = ConnResult.rejected "Unauthorized"
    ∧ ∃ t p, handshakeToken
          { authToken := some { payload := { sub := "u2", lastLogin := 3,
                                             email := "a@b", rememberMe := true },
                                signedWith := "s" },
            headerToken := none } = some t
        ∧ jwtVerify "s" t = some p
        ∧ 0 ≤ (fun _ : String => (5 : Int)) (sessionKey p)
        ∧ ({ id := "u2", email := "a@b" } : AuthUser) = { id := p.sub, email := p.email } := by
  constructor
  · exact (C1_socket_auth_spec "s" { authToken := none, headerToken := none }
      (fun _ => -2)).1.mpr (Or.inl rfl)
  · obtain ⟨t, p, h1, h2, h3, h4, -⟩ :=
      (C1_socket_auth_spec "s"
        { authToken := some { payload := { sub := "u2", lastLogin := 3,
                                           email := "a@b", rememberMe := true },
                              signedWith := "s" },
          headerToken := none } (fun _ => (5 : Int))).2
        { id := "u2", email := "a@b" }
        [SocketEffect.setUserOnline "u2", SocketEffect.registerEventHandlers "u2"]
        (by rfl)
    exact ⟨t, p, h1, h2, h3, h4⟩

/-- C5 as stated is refuted: `markAsRead` filters only by message and
recipient, with no `read_at IS NULL` constraint, so re-issuing it for an
already-read receipt overwrites the stored `readAt` with the new call
time — the stored value changes rather than staying fixed. -/
theorem C5_markAsRead_counterexample :
    (markAsRead
        { users := [], roomMembers := [], messages := [],
          receipts := [{ message_id := "m1", recipient_id := "u1",
                         delivered_at := 0, read_at := some 1 }] }
        "m1" "u1" 2).1.receipts =
      [{ message_id := "m1", recipient_id := "u1", delivered_at := 0,
         read_at := some 2 }]
    ∧ (markAsRead
        { users := [], roomMembers := [], messages := [],
          receipts := [{ message_id := "m1", recipient_id := "u1",
                         delivered_at := 0, read_at := some 1 }] }
        "m1" "u1" 2).1.receipts ≠
      [{ message_id := "m1", recipient_id := "u1", delivered_at := 0,
         read_at := some 1 }] := by
  constructor <;> decide

/-- C5 (amended). A receipt's `readAt` transitions from null to non-null
and never back: both mark operations leave a non-null `readAt` non-null.
Re-issuing `markMultipleAsRead` is a no-op for an already-read row (its
`read_at IS NULL` filter skips it, so the stored value is untouched), and
re-issuing either call is safe; but re-issuing `markAsRead` overwrites the
matching rows' stored `readAt` with the new timestamp rather than
preserving the original value (rows not matching are untouched). -/
theorem C5_receipts_read_transition_spec :
    ∀ (db : Store) (ids : List String) (mid uid : String) (now : Int),
      List.Forall₂ (fun old new => old.read_at ≠ none → new = old)
        db.receipts (markMultipleAsRead db ids uid now).1.receipts
      ∧ List.Forall₂ (fun old new => old.read_at ≠ none → new.read_at ≠ none)
        db.receipts (markMultipleAsRead db ids uid now).1.receipts
      ∧ List.Forall₂ (fun old new =>
            (old.read_at ≠ none → new.read_at ≠ none)
            ∧ (old.message_id = mid ∧ old.recipient_id = uid →
                new.read_at = some now)
            ∧ (¬(old.message_id = mid ∧ old.recipient_id = uid) → new = old))
        db.receipts (markAsRead db mid uid now).1.receipts := by
  intro db ids mid uid now
  refine ⟨?_, ?_, ?_⟩ <;>
  · simp only [markMultipleAsRead, markAsRead]
    rw [List.forall₂_map_right_iff]
    rw [List.forall₂_same]
    intro x hx
    by_cases h1 : x.message_id = mid
    all_goals by_cases h2 : x.recipient_id = uid
    all_goals by_cases h3 : ids.contains x.message_id
    all_goals by_cases h4 : x.read_at = none
    all_goals simp_all

/-- Witness for C5: the amended specification applied at a store with one
read and one unread receipt. -/
theorem C5_receipts_read_transition_spec_witness :
    List.Forall₂ (fun old new => old.read_at ≠ none → new = old)
      [({ message_id := "m1", recipient_id := "u1", delivered_at := 0,
          read_at := some 1 } : ReceiptRow),
       { message_id := "m2", recipient_id := "u1", delivered_at := 0,
         read_at := none }]
      (markMultipleAsRead
        { users := [], roomMembers := [], messages := [],
          receipts := [{ message_id := "m1", recipient_id := "u1",
                         delivered_at := 0, read_at := some 1 },
                       { message_id := "m2", recipient_id := "u1",
                         delivered_at := 0, read_at := none }] }
        ["m1", "m2"] "u1" 9).1.receipts :=
  (C5_receipts_read_transition_spec
    { users := [], roomMembers := [], messages := [],
      receipts := [{ message_id := "m1", recipient_id := "u1",
                     delivered_at := 0, read_at := some 1 },
                   { message_id := "m2", recipient_id := "u1",
                     delivered_at := 0, read_at := none }] }
    ["m1", "m2"] "m1" "u1" 9).1

/-- C3: the code contradicts its own comment ("Remove the request we just
added since it's not allowed"): on denial it issues `ZREM` for
`now-Math.random()` with a fresh random draw, not the member added by the
pipeline, so the denied call's marker stays in the sorted set and the
window cardinality exceeds `maxRequests`. With `maxRequests = 1`,
`windowSeconds = 10`: a first call at t = 0 is allowed, a second call at
t = 0 is denied, yet after the denied call both markers remain and the set
cardinality is 2 > 1. -/
theorem C3_rate_limiter_denied_marker_retained :
    (checkRateLimit emptyRL { maxRequests := 1, windowSeconds := 10 }
        0 "a" "x").1.allowed = true
    ∧ (checkRateLimit
        (checkRateLimit emptyRL { maxRequests := 1, windowSeconds := 10 }
          0 "a" "x").2
        { maxRequests := 1, windowSeconds := 10 } 0 "b" "c").1.allowed = false
    ∧ (checkRateLimit
        (checkRateLimit emptyRL { maxRequests := 1, windowSeconds := 10 }
          0 "a" "x").2
        { maxRequests := 1, windowSeconds := 10 } 0 "b" "c").2.entries.map
          (fun e => e.member) = ["0-a", "0-b"]
    ∧ (checkRateLimit
        (checkRateLimit emptyRL { maxRequests := 1, windowSeconds := 10 }
          0 "a" "x").2
        { maxRequests := 1, windowSeconds := 10 } 0 "b" "c").2.entries.length = 2 := by
  refine ⟨?_, ?_, ?_, ?_⟩ <;> decide

/-- Skip-duplicate insertion never removes rows. -/
theorem mem_insertReceiptSkipDup {rows : List ReceiptRow} {x : ReceiptRow}
    (y : ReceiptRow) (hx : x ∈ rows) : x ∈ insertReceiptSkipDup rows y := by
  unfold insertReceiptSkipDup
  split
  · exact hx
  · exact List.mem_append_left _ hx

/-- Rows after a skip-duplicate insertion come from the old rows or are the
inserted row. -/
theorem insertReceiptSkipDup_mem {rows : List ReceiptRow} {x y : ReceiptRow}
    (hx : x ∈ insertReceiptSkipDup rows y) : x ∈ rows ∨ x = y := by
  unfold insertReceiptSkipDup at hx
  split at hx
  · exact Or.inl hx
  · rcases List.mem_append.1 hx with h | h
    · exact Or.inl h
    · exact Or.inr (List.mem_singleton.1 h)

/-- Skip-duplicate insertion preserves uniqueness of the
`(message_id, recipient_id)` key. -/
theorem pairCount_insertReceiptSkipDup {rows : List ReceiptRow} (y : ReceiptRow)
    (h : ∀ m r, pairCount rows m r ≤ 1) :
    ∀ m r, pairCount (insertReceiptSkipDup rows y) m r ≤ 1 := by
  intro m r
  unfold insertReceiptSkipDup
  split
  · exact h m r
  · rename_i hany
    rw [Bool.not_eq_true, List.any_eq_false] at hany
    unfold pairCount
    rw [List.filter_append, List.length_append]
    by_cases hy : y.message_id = m ∧ y.recipient_id = r
    · have hzero : rows.filter (fun x => x.message_id = m && x.recipient_id = r) = [] := by
        rw [List.filter_eq_nil_iff]
        intro a ha
        have := hany a ha
        simp only [Bool.and_eq_true, decide_eq_true_eq] at this ⊢
        intro hcon
        exact this ⟨hy.1 ▸ hcon.1, hy.2 ▸ hcon.2⟩
      have hone : ([y].filter (fun x => x.message_id = m && x.recipient_id = r)).length ≤ 1 :=
        List.length_filter_le _ _
      rw [hzero]
      simpa using hone
    · have hzero : ([y].filter (fun x => x.message_id = m && x.recipient_id = r)).length = 0 := by
        simp only [List.filter, List.length_nil]
        split <;> rename_i hsp
        · simp only [Bool.and_eq_true, decide_eq_true_eq] at hsp
          exact absurd hsp hy
        · rfl
      rw [hzero]
      have := h m r
      unfold pairCount at this
      omega

/-- Bulk skip-duplicate insertion never removes rows. -/
theorem mem_createManySkipDup {x : ReceiptRow} :
    ∀ (batch : List ReceiptRow) (rows : List ReceiptRow), x ∈ rows →
      x ∈ createManySkipDup rows batch := by
  intro batch
  induction batch with
  | nil => intro rows hx; exact hx
  | cons y ys ih =>
    intro rows hx
    exact ih _ (mem_insertReceiptSkipDup y hx)

/-- Rows after a bulk skip-duplicate insertion come from the old rows or
from the batch. -/
theorem createManySkipDup_mem {x : ReceiptRow} :
    ∀ (batch : List ReceiptRow) (rows : List ReceiptRow),
      x ∈ createManySkipDup rows batch → x ∈ rows ∨ x ∈ batch := by
  intro batch
  induction batch with
  | nil => intro rows hx; exact Or.inl hx
  | cons y ys ih =>
    intro rows hx
    rcases ih _ hx with h | h
    · rcases insertReceiptSkipDup_mem h with h' | h'
      · exact Or.inl h'
      · exact Or.inr (h' ▸ List.mem_cons_self _ _)
    · exact Or.inr (List.mem_cons_of_mem _ h)

/-- Bulk skip-duplicate insertion preserves uniqueness of the
`(message_id, recipient_id)` key. -/
theorem pairCount_createManySkipDup :
    ∀ (batch : List ReceiptRow) (rows : List ReceiptRow),
      (∀ m r, pairCount rows m r ≤ 1) →
      ∀ m r, pairCount (createManySkipDup rows batch) m r ≤ 1 := by
  intro batch
  induction batch with
  | nil => intro rows h; exact h
  | cons y ys ih =>
    intro rows h
    exact ih _ (pairCount_insertReceiptSkipDup y h)

/-- After a bulk skip-duplicate insertion, every batch row's key is present. -/
theorem createManySkipDup_pair_present {y : ReceiptRow} :
    ∀ (batch : List ReceiptRow) (rows : List ReceiptRow), y ∈ batch →
      ∃ x ∈ createManySkipDup rows batch,
        x.message_id = y.message_id ∧ x.recipient_id = y.recipient_id := by
  intro batch
  induction batch with
  | nil => intro rows h; exact absurd h (List.not_mem_nil _)
  | cons z zs ih =>
    intro rows hy
    rcases List.mem_cons.1 hy with h | h
    · subst h
      by_cases hany : rows.any (fun x =>
          x.message_id = y.message_id && x.recipient_id = y.recipient_id) = true
      · rw [List.any_eq_true] at hany
        obtain ⟨x, hx, hxy⟩ := hany
        simp only [Bool.and_eq_true, decide_eq_true_eq] at hxy
        exact ⟨x, mem_createManySkipDup zs _ (mem_insertReceiptSkipDup y hx), hxy⟩
      · refine ⟨y, mem_createManySkipDup zs _ ?_, rfl, rfl⟩
        unfold insertReceiptSkipDup
        rw [if_neg hany]
        exact List.mem_append_right _ (List.mem_singleton.2 rfl)
    · exact ih _ h

/-- When every batch row's key is already present, the bulk skip-duplicate
insertion is a no-op. -/
theorem createManySkipDup_skips_present :
    ∀ (batch : List ReceiptRow) (rows : List ReceiptRow),
      (∀ y ∈ batch, ∃ x ∈ rows,
        x.message_id = y.message_id ∧ x.recipient_id = y.recipient_id) →
      createManySkipDup rows batch = rows := by
  intro batch
  induction batch with
  | nil => intro rows _; rfl
  | cons y ys ih =>
    intro rows h
    obtain ⟨x, hx, hx1, hx2⟩ := h y (List.mem_cons_self _ _)
    have hins : insertReceiptSkipDup rows y = rows := by
      unfold insertReceiptSkipDup
      rw [if_pos]
      rw [List.any_eq_true]
      exact ⟨x, hx, by simp [hx1, hx2]⟩
    show createManySkipDup (insertReceiptSkipDup rows y) ys = rows
    rw [hins]
    exact ih _ (fun z hz => h z (List.mem_cons_of_mem _ hz))

/-- The defensive re-filter against the sender removes nothing: the member
query already excluded the sender. -/
theorem deliveryRecipients_eq_map (db : Store) (roomId senderId : String) :
    deliveryRecipients db roomId senderId =
      (db.roomMembers.filter (fun m =>
        m.room_id = roomId && m.member_id ≠ senderId && m.deleted_at = none)).map
        (fun m => m.member_id) := by
  unfold deliveryRecipients
  rw [List.filter_eq_self]
  intro x hx
  rw [List.mem_map] at hx
  obtain ⟨m, hm, hmx⟩ := hx
  rw [List.mem_filter] at hm
  have := hm.2
  simp only [Bool.and_eq_true, decide_eq_true_eq, bne_iff_ne, ne_eq] at this ⊢
  exact hmx ▸ this.1.2

/-- `createDeliveryReceipts` resolved through its two early returns: it is
the identity exactly when no recipient remains; otherwise it bulk-inserts
the batch. -/
theorem createDeliveryReceipts_eq (db : Store) (messageId roomId senderId : String)
    (now : Int) :
    createDeliveryReceipts db messageId roomId senderId now =
      if deliveryRecipients db roomId senderId = [] then db
      else { db with receipts := createManySkipDup db.receipts (deliveryBatch db messageId roomId senderId now) } := by
  have hlen : (deliveryRecipients db roomId senderId).length =
      (db.roomMembers.filter (fun m =>
        m.room_id = roomId && m.member_id ≠ senderId && m.deleted_at = none)).length := by
    rw [deliveryRecipients_eq_map, List.length_map]
  by_cases h : deliveryRecipients db roomId senderId = []
  · have hm : (db.roomMembers.filter (fun m =>
        m.room_id = roomId && m.member_id ≠ senderId && m.deleted_at = none)).length = 0 := by
      rw [← hlen, h]
      rfl
    rw [if_pos h]
    unfold createDeliveryReceipts
    rw [if_pos hm]
  · have hm : ¬(db.roomMembers.filter (fun m =>
        m.room_id = roomId && m.member_id ≠ senderId && m.deleted_at = none)).length = 0 := by
      intro hc
      apply h
      rw [← List.length_eq_zero, hlen]
      exact hc
    have hr : ¬(((db.roomMembers.filter (fun m =>
        m.room_id = roomId && m.member_id ≠ senderId && m.deleted_at = none)).map
          (fun m => m.member_id)).filter (fun memberId => memberId ≠ senderId)).length = 0 := by
      intro hc
      apply h
      show (((db.roomMembers.filter (fun m =>
        m.room_id = roomId && m.member_id ≠ senderId && m.deleted_at = none)).map
          (fun m => m.member_id)).filter (fun memberId => memberId ≠ senderId)) = []
      rw [← List.length_eq_zero]
      exact hc
    rw [if_neg h]
    unfold createDeliveryReceipts
    rw [if_neg hm, if_neg hr]
    rfl

/-- `createDeliveryReceipts` only touches the receipts table. -/
theorem createDeliveryReceipts_roomMembers (db : Store)
    (messageId roomId senderId : String) (now : Int) :
    (createDeliveryReceipts db messageId roomId senderId now).roomMembers =
      db.roomMembers := by
  rw [createDeliveryReceipts_eq]
  split <;> rfl

/-- The recipient list only depends on the members table, which
`createDeliveryReceipts` leaves unchanged. -/
theorem deliveryRecipients_createDeliveryReceipts (db : Store)
    (messageId roomId senderId roomId' senderId' : String) (now : Int) :
    deliveryRecipients (createDeliveryReceipts db messageId roomId senderId now)
        roomId' senderId' = deliveryRecipients db roomId' senderId' := by
  unfold deliveryRecipients
  rw [createDeliveryReceipts_roomMembers]

/-- Batch rows target the given message and never the sender. -/
theorem deliveryBatch_shape {db : Store} {messageId roomId senderId : String}
    {now : Int} {row : ReceiptRow}
    (hrow : row ∈ deliveryBatch db messageId roomId senderId now) :
    row.message_id = messageId ∧ row.recipient_id ≠ senderId := by
  unfold deliveryBatch at hrow
  rw [List.mem_map] at hrow
  obtain ⟨rid, hrid, hr⟩ := hrow
  unfold deliveryRecipients at hrid
  rw [List.mem_filter] at hrid
  subst hr
  exact ⟨rfl, by simpa using hrid.2⟩

/-- Every active non-sender member of the room appears in the recipient
list. -/
theorem mem_deliveryRecipients {db : Store} {roomId senderId : String}
    {m : MemberRow} (hm : m ∈ db.roomMembers) (h1 : m.room_id = roomId)
    (h2 : m.member_id ≠ senderId) (h3 : m.deleted_at = none) :
    m.member_id ∈ deliveryRecipients db roomId senderId := by
  unfold deliveryRecipients
  rw [List.mem_filter]
  constructor
  · rw [List.mem_map]
    exact ⟨m, List.mem_filter.2 ⟨hm, by simp [h1, h2, h3]⟩, rfl⟩
  · simpa using h2

/-- A second `createDeliveryReceipts` call with the same message, room and
sender is a no-op: every key it would insert is already present. -/
theorem createDeliveryReceipts_idem (db : Store)
    (messageId roomId senderId : String) (n1 n2 : Int) :
    createDeliveryReceipts (createDeliveryReceipts db messageId roomId senderId n1)
        messageId roomId senderId n2 =
      createDeliveryReceipts db messageId roomId senderId n1 := by
  by_cases h : deliveryRecipients db roomId senderId = []
  · rw [createDeliveryReceipts_eq db, if_pos h,
      createDeliveryReceipts_eq db, if_pos h]
  · have hrec := deliveryRecipients_createDeliveryReceipts db messageId roomId
      senderId roomId senderId n1
    rw [createDeliveryReceipts_eq (createDeliveryReceipts db messageId roomId senderId n1),
      hrec, if_neg h]
    have hskip : createManySkipDup
        (createDeliveryReceipts db messageId roomId senderId n1).receipts
        (deliveryBatch (createDeliveryReceipts db messageId roomId senderId n1)
          messageId roomId senderId n2) =
        (createDeliveryReceipts db messageId roomId senderId n1).receipts := by
      apply createManySkipDup_skips_present
      intro y hy
      have hbatch : y ∈ deliveryBatch db messageId roomId senderId n2 := by
        unfold deliveryBatch at hy ⊢
        rw [hrec] at hy
        exact hy
      unfold deliveryBatch at hbatch
      rw [List.mem_map] at hbatch
      obtain ⟨rid, hrid, hy2⟩ := hbatch
      have hr1 : createDeliveryReceipts db messageId roomId senderId n1 =
          { db with receipts := createManySkipDup db.receipts (deliveryBatch db messageId roomId senderId n1) } := by
        rw [createDeliveryReceipts_eq, if_neg h]
      obtain ⟨x, hx, hx1, hx2⟩ := createManySkipDup_pair_present
        (y := { message_id := messageId, recipient_id := rid, delivered_at := n1,
                read_at := none })
        (deliveryBatch db messageId roomId senderId n1) db.receipts
        (by
          unfold deliveryBatch
          rw [List.mem_map]
          exact ⟨rid, hrid, rfl⟩)
      refine ⟨x, ?_, ?_⟩
      · rw [hr1]
        exact hx
      · subst hy2
        exact ⟨hx1, hx2⟩
    rw [hskip]

/-- C4. `createDeliveryReceipts` is duplicate-call safe: starting from a
store whose receipts satisfy the `(message_id, recipient_id)` uniqueness
invariant, two calls with the same arguments still satisfy it (the second
call changes nothing at all); every row the calls add targets the given
message and never the sender; and when the room has no active member other
than the sender, a call inserts nothing. -/
theorem C4_createDeliveryReceipts_spec :
    ∀ (db : Store) (messageId roomId senderId : String) (n1 n2 : Int),
      (∀ m r, pairCount db.receipts m r ≤ 1) →
        ((∀ m r, pairCount
            (createDeliveryReceipts
              (createDeliveryReceipts db messageId roomId senderId n1)
              messageId roomId senderId n2).receipts m r ≤ 1)
        ∧ (∀ row ∈ (createDeliveryReceipts
              (createDeliveryReceipts db messageId roomId senderId n1)
              messageId roomId senderId n2).receipts,
            row ∉ db.receipts →
              row.message_id = messageId ∧ row.recipient_id ≠ senderId)
        ∧ createDeliveryReceipts
            (createDeliveryReceipts db messageId roomId senderId n1)
            messageId roomId senderId n2 =
          createDeliveryReceipts db messageId roomId senderId n1
        ∧ (db.roomMembers.filter (fun m =>
            m.room_id = roomId && m.member_id ≠ senderId && m.deleted_at = none) = [] →
            createDeliveryReceipts db messageId roomId senderId n1 = db)) := by
  intro db messageId roomId senderId n1 n2 huniq
  have hidem := createDeliveryReceipts_idem db messageId roomId senderId n1 n2
  have hone : ∀ now : Int, (∀ m r, pairCount
      (createDeliveryReceipts db messageId roomId senderId now).receipts m r ≤ 1) := by
    intro now m r
    rw [createDeliveryReceipts_eq]
    split
    · exact huniq m r
    · exact pairCount_createManySkipDup _ _ huniq m r
  have hshape : ∀ row ∈ (createDeliveryReceipts db messageId roomId senderId n1).receipts,
      row ∉ db.receipts → row.message_id = messageId ∧ row.recipient_id ≠ senderId := by
    intro row hrow hnot
    rw [createDeliveryReceipts_eq] at hrow
    split at hrow
    · exact absurd hrow hnot
    · rcases createManySkipDup_mem _ _ hrow with hmem | hmem
      · exact absurd hmem hnot
      · exact deliveryBatch_shape hmem
  refine ⟨?_, ?_, hidem, ?_⟩
  · rw [hidem]
    exact hone n1
  · rw [hidem]
    exact hshape
  · intro hempty
    rw [createDeliveryReceipts_eq, if_pos]
    rw [deliveryRecipients_eq_map, hempty]
    rfl

/-- Witness for C4: the specification applied to a two-member room whose
store starts empty of receipts; calling twice leaves a single receipt for
the non-sender member. -/
theorem C4_createDeliveryReceipts_spec_witness :
    (∀ m r, pairCount
      (createDeliveryReceipts
        (createDeliveryReceipts
          { users := [], roomMembers := [
              { room_id := "room1", member_id := "alice", deleted_at := none },
              { room_id := "room1", member_id := "bob", deleted_at := none }],
            messages := [], receipts := [] }
          "m1" "room1" "alice" 1)
        "m1" "room1" "alice" 2).receipts m r ≤ 1)
    ∧ createDeliveryReceipts
        (createDeliveryReceipts
          { users := [], roomMembers := [
              { room_id := "room1", member_id := "alice", deleted_at := none },
              { room_id := "room1", member_id := "bob", deleted_at := none }],
            messages := [], receipts := [] }
          "m1" "room1" "alice" 1)
        "m1" "room1" "alice" 2 =
      createDeliveryReceipts
        { users := [], roomMembers := [
            { room_id := "room1", member_id := "alice", deleted_at := none },
            { room_id := "room1", member_id := "bob", deleted_at := none }],
          messages := [], receipts := [] }
        "m1" "room1" "alice" 1 := by
  have h := C4_createDeliveryReceipts_spec
    { users := [], roomMembers := [
        { room_id := "room1", member_id := "alice", deleted_at := none },
        { room_id := "room1", member_id := "bob", deleted_at := none }],
      messages := [], receipts := [] }
    "m1" "room1" "alice" 1 2 (by intro m r; simp [pairCount])
  exact ⟨h.1, h.2.2.1⟩

/-- `Math.ceil` of a positive quantity divided by a positive divisor is
positive. -/
theorem jsCeilDiv_pos {x d : Int} (hx : 0 < x) (hd : 0 < d) :
    0 < jsCeilDiv x d := by
  unfold jsCeilDiv
  have h1 : (-x).fdiv d < 0 := Int.fdiv_neg' (by omega) hd
  omega

/-- A `checkRateLimit` call below the limit from a window holding one
marker per previous call: it is allowed, reports
`maxRequests − count − 1` remaining, and appends its own marker. -/
theorem checkRateLimit_step_allowed (cfg : RateLimitConfig) (hist : List RLCall)
    (c : RLCall) (e : Int)
    (hlen : hist.length < cfg.maxRequests)
    (hlive : hist = [] ∨ c.t < e)
    (hwin : ∀ b ∈ hist, c.t - (cfg.windowSeconds : Int) * 1000 < b.t)
    (hfresh : callMember c ∉ hist.map callMember) :
    checkRateLimit { entries := markersOf hist, expiresAt := e } cfg c.t
        c.nonce c.nonce2 =
      ({ allowed := true, remaining := cfg.maxRequests - hist.length - 1,
         resetTime := c.t + (cfg.windowSeconds : Int) * 1000, retryAfter := none },
       { entries := markersOf (hist ++ [c]),
         expiresAt := c.t + (cfg.windowSeconds : Int) * 1000 }) := by
  have hliveEq : (if c.t < e then markersOf hist else []) = markersOf hist := by
    rcases hlive with h | h
    · subst h
      simp [markersOf]
    · rw [if_pos h]
  have hrem : zremrangebyscore (markersOf hist) 0
      (c.t - (cfg.windowSeconds : Int) * 1000) = markersOf hist := by
    unfold zremrangebyscore
    rw [List.filter_eq_self]
    intro a ha
    unfold markersOf at ha
    rw [List.mem_map] at ha
    obtain ⟨b, hb, hba⟩ := ha
    have := hwin b hb
    subst hba
    simp only [Bool.not_eq_true', Bool.and_eq_false_iff, decide_eq_false_iff_not,
      not_le]
    omega
  have hanyf : (markersOf hist).any
      (fun x => x.member = (toString c.t ++ "-" ++ c.nonce)) = false := by
    rw [List.any_eq_false]
    intro x hx
    unfold markersOf at hx
    rw [List.mem_map] at hx
    obtain ⟨b, hb, hbx⟩ := hx
    subst hbx
    simp only [decide_eq_true_eq]
    intro hcon
    exact hfresh (List.mem_map.2 ⟨b, hb, hcon⟩)
  have hadd : zadd (markersOf hist) c.t (toString c.t ++ "-" ++ c.nonce) =
      markersOf (hist ++ [c]) := by
    unfold zadd
    rw [if_neg (by rw [hanyf]; exact Bool.false_ne_true)]
    unfold markersOf
    rw [List.map_append]
    rfl
  have hcount : (markersOf hist).length = hist.length := List.length_map _ _
  have hdec : decide ((markersOf hist).length < cfg.maxRequests) = true := by
    rw [hcount]
    exact decide_eq_true hlen
  simp only [checkRateLimit, hliveEq, hrem, hadd, hcount, decide_eq_true hlen,
    if_true, if_pos]

/-- A `checkRateLimit` call at the limit from a window holding one marker
per previous call: denied, zero remaining, and a positive `retryAfter`
whether or not the stray `ZREM` hits a marker. -/
theorem checkRateLimit_step_denied (cfg : RateLimitConfig) (hist : List RLCall)
    (c : RLCall) (e : Int)
    (hlen : hist.length = cfg.maxRequests)
    (hw0 : 0 < cfg.windowSeconds)
    (hlive : c.t < e)
    (hwin : ∀ b ∈ hist, c.t - (cfg.windowSeconds : Int) * 1000 < b.t) :
    ∃ ra : Int, 0 < ra ∧
      (checkRateLimit { entries := markersOf hist, expiresAt := e } cfg c.t
          c.nonce c.nonce2).1 =
        { allowed := false, remaining := 0,
          resetTime := c.t + (cfg.windowSeconds : Int) * 1000,
          retryAfter := some ra } := by
  have hrem : zremrangebyscore (if c.t < e then markersOf hist else []) 0
      (c.t - (cfg.windowSeconds : Int) * 1000) = markersOf hist := by
    rw [if_pos hlive]
    unfold zremrangebyscore
    rw [List.filter_eq_self]
    intro a ha
    unfold markersOf at ha
    rw [List.mem_map] at ha
    obtain ⟨b, hb, hba⟩ := ha
    have := hwin b hb
    subst hba
    simp only [Bool.not_eq_true', Bool.and_eq_false_iff, decide_eq_false_iff_not,
      not_le]
    omega
  have hcount : (markersOf hist).length = hist.length := List.length_map _ _
  have hdec : decide ((markersOf hist).length < cfg.maxRequests) = false := by
    rw [hcount, hlen]
    simp
  have hscores : ∀ a ∈ zrem (zadd (markersOf hist) c.t
      (toString c.t ++ "-" ++ c.nonce)) (toString c.t ++ "-" ++ c.nonce2),
      c.t - (cfg.windowSeconds : Int) * 1000 < a.score := by
    intro a ha
    unfold zrem at ha
    have ha2 := List.mem_of_mem_filter ha
    unfold zadd at ha2
    split at ha2
    · rw [List.mem_map] at ha2
      obtain ⟨x, hx, hxa⟩ := ha2
      unfold markersOf at hx
      rw [List.mem_map] at hx
      obtain ⟨b, hb, hbx⟩ := hx
      have := hwin b hb
      subst hbx
      subst hxa
      dsimp only
      split
      · dsimp only
        omega
      · dsimp only
        omega
    · rcases List.mem_append.1 ha2 with h | h
      · unfold markersOf at h
        rw [List.mem_map] at h
        obtain ⟨b, hb, hba⟩ := h
        have := hwin b hb
        subst hba
        dsimp only
        omega
      · rw [List.mem_singleton.1 h]
        have : (0 : Int) < (cfg.windowSeconds : Int) * 1000 := by positivity
        dsimp only
        omega
  set survivors := zrem (zadd (markersOf hist) c.t
      (toString c.t ++ "-" ++ c.nonce)) (toString c.t ++ "-" ++ c.nonce2)
    with hsurv
  match hmin : minScore? survivors with
  | none =>
    refine ⟨(cfg.windowSeconds : Int), by exact_mod_cast hw0, ?_⟩
    simp only [checkRateLimit, hrem, hdec, ← hsurv, hmin, if_false,
      Bool.false_eq_true]
  | some oldest =>
    have hmem : oldest ∈ survivors.map (fun e => e.score) := by
      apply List.min?_mem (fun a b : Int => by rw [min_def]; split <;> simp)
      exact hmin
    rw [List.mem_map] at hmem
    obtain ⟨a, ha, has⟩ := hmem
    have hpos : 0 < oldest + (cfg.windowSeconds : Int) * 1000 - c.t := by
      have := hscores a ha
      omega
    refine ⟨jsCeilDiv (oldest + (cfg.windowSeconds : Int) * 1000 - c.t) 1000,
      jsCeilDiv_pos hpos (by norm_num), ?_⟩
    simp only [checkRateLimit, hrem, hdec, ← hsurv, hmin, if_false,
      Bool.false_eq_true]

/-- Running the remaining calls of a within-window sequence from the state
holding one marker per already-made call meets `ResultsSpec`. -/
theorem runCalls_resultsSpec (cfg : RateLimitConfig) (hmax : 0 < cfg.maxRequests)
    (hw0 : 0 < cfg.windowSeconds) :
    ∀ (pending hist : List RLCall) (e : Int),
      (∀ a ∈ hist ++ pending, ∀ b ∈ hist ++ pending,
        a.t < b.t + (cfg.windowSeconds : Int) * 1000) →
      ((hist ++ pending).map callMember).Nodup →
      hist.length + pending.length ≤ cfg.maxRequests + 1 →
      (∀ b ∈ pending, hist = [] ∨ b.t < e) →
      ResultsSpec cfg hist.length pending
        (runCalls { entries := markersOf hist, expiresAt := e } cfg pending).1 := by
  intro pending
  induction pending with
  | nil =>
    intro hist e _ _ _ _
    simp [runCalls, ResultsSpec]
  | cons c cs ih =>
    intro hist e hwin hnodup hlen he
    have hcmem : c ∈ hist ++ c :: cs := List.mem_append_right _ (List.mem_cons_self _ _)
    have hwinh : ∀ b ∈ hist, c.t - (cfg.windowSeconds : Int) * 1000 < b.t := by
      intro b hb
      have := hwin c hcmem b (List.mem_append_left _ hb)
      omega
    have hk : hist.length ≤ cfg.maxRequests := by
      have := hlen
      simp only [List.length_cons] at this
      omega
    simp only [runCalls]
    rcases Nat.lt_or_ge hist.length cfg.maxRequests with hklt | hkge
    · -- below the limit: the call is allowed
      have hfresh : callMember c ∉ hist.map callMember := by
        intro hmem
        rw [List.map_append, List.nodup_append] at hnodup
        exact hnodup.2.2 hmem (by
          rw [List.map_cons]
          exact List.mem_cons_self _ _)
      rw [checkRateLimit_step_allowed cfg hist c e hklt (he c (List.mem_cons_self _ _))
        hwinh hfresh]
      simp only [ResultsSpec]
      refine ⟨_, _, rfl, fun _ => ⟨rfl, ?_⟩, fun hkeq => absurd hkeq (by omega)⟩
      have happ : hist ++ c :: cs = (hist ++ [c]) ++ cs := by
        rw [List.append_assoc]
        rfl
      have := ih (hist ++ [c]) (c.t + (cfg.windowSeconds : Int) * 1000)
        (by rw [← happ]; exact hwin)
        (by rw [← happ]; exact hnodup)
        (by
          rw [List.length_append, List.length_singleton]
          simp only [List.length_cons] at hlen
          omega)
        (by
          intro b hb
          refine Or.inr ?_
          have := hwin b (List.mem_append_right _ (List.mem_cons_of_mem _ hb)) c hcmem
          omega)
      rw [List.length_append, List.length_singleton] at this
      exact this
    · -- at the limit: the call is denied and must be the last one
      have hkeq : hist.length = cfg.maxRequests := by omega
      have hcs : cs = [] := by
        simp only [List.length_cons] at hlen
        have : cs.length = 0 := by omega
        exact List.length_eq_zero.1 this
      subst hcs
      have hlive : c.t < e := by
        rcases he c (List.mem_cons_self _ _) with hnil | h
        · rw [hnil] at hkeq
          simp only [List.length_nil] at hkeq
          omega
        · exact h
      obtain ⟨ra, hra, hres⟩ := checkRateLimit_step_denied cfg hist c e hkeq hw0
        hlive hwinh
      simp only [ResultsSpec]
      refine ⟨_, _, rfl, fun hk' => absurd hk' (by omega), fun _ => ?_⟩
      rw [hres]
      exact ⟨rfl, rfl, ⟨ra, rfl, hra⟩, by simp [runCalls, ResultsSpec]⟩

/-- C6. From an empty window, a sequence of `maxRequests + 1` calls for one
identifier, all falling within one `windowSeconds` span of each other (with
the sequence's markers pairwise distinct, as the random tie-breaker
ensures), yields: every call before the limit allowed with
`remaining = maxRequests − k − 1` at position `k` — so the remaining values
are exactly `maxRequests−1, …, 1, 0`, strictly decreasing — and the final
`(maxRequests+1)`-th call denied with `remaining = 0` and a strictly
positive `retryAfter`. -/
theorem C6_rate_limiter_window_sequence_spec :
    ∀ (cfg : RateLimitConfig) (calls : List RLCall),
      0 < cfg.maxRequests → 0 < cfg.windowSeconds →
      calls.length = cfg.maxRequests + 1 →
      calls.Pairwise (fun a b => a.t ≤ b.t) →
      (∀ a ∈ calls, ∀ b ∈ calls, a.t < b.t + (cfg.windowSeconds : Int) * 1000) →
      (calls.map callMember).Nodup →
      ResultsSpec cfg 0 calls (runCalls emptyRL cfg calls).1 := by
  intro cfg calls hmax hw0 hlen _ hwin hnodup
  have h := runCalls_resultsSpec cfg hmax hw0 calls [] 0
    (by simpa using hwin) (by simpa using hnodup) (by simp [hlen])
    (fun b _ => Or.inl rfl)
  simpa [markersOf, emptyRL] using h

/-- Witness for C6: three calls against a 2-per-10-seconds limit at times
0, 1, 2 ms — allowed with remaining 1, allowed with remaining 0, then
denied with remaining 0 and a positive retryAfter. -/
theorem C6_rate_limiter_window_sequence_spec_witness :
    ResultsSpec { maxRequests := 2, windowSeconds := 10 } 0
      [{ t := 0, nonce := "a", nonce2 := "x" },
       { t := 1, nonce := "b", nonce2 := "y" },
       { t := 2, nonce := "c", nonce2 := "z" }]
      (runCalls emptyRL { maxRequests := 2, windowSeconds := 10 }
        [{ t := 0, nonce := "a", nonce2 := "x" },
         { t := 1, nonce := "b", nonce2 := "y" },
         { t := 2, nonce := "c", nonce2 := "z" }]).1 :=
  C6_rate_limiter_window_sequence_spec
    { maxRequests := 2, windowSeconds := 10 }
    [{ t := 0, nonce := "a", nonce2 := "x" },
     { t := 1, nonce := "b", nonce2 := "y" },
     { t := 2, nonce := "c", nonce2 := "z" }]
    (by decide) (by decide) (by decide)
    (by decide) (by decide) (by decide)

/-- The whitespace collapse emits only spaces and original characters. -/
theorem collapseWsAux_mem {c : Char} :
    ∀ (l : List Char) (b : Bool), c ∈ collapseWsAux b l → c = ' ' ∨ c ∈ l := by
  intro l
  induction l with
  | nil => intro b h; exact absurd h (List.not_mem_nil _)
  | cons d ds ih =>
    intro b h
    unfold collapseWsAux at h
    split at h
    · split at h
      · rcases ih true h with h' | h'
        · exact Or.inl h'
        · exact Or.inr (List.mem_cons_of_mem _ h')
      · rcases List.mem_cons.1 h with h' | h'
        · exact Or.inl h'
        · rcases ih true h' with h'' | h''
          · exact Or.inl h''
          · exact Or.inr (List.mem_cons_of_mem _ h'')
    · rcases List.mem_cons.1 h with h' | h'
      · exact Or.inr (h' ▸ List.mem_cons_self _ _)
      · rcases ih false h' with h'' | h''
        · exact Or.inl h''
        · exact Or.inr (List.mem_cons_of_mem _ h'')

/-- Every whitespace character the collapse emits is a plain space. -/
theorem collapseWsAux_ws_space {c : Char} :
    ∀ (l : List Char) (b : Bool), c ∈ collapseWsAux b l →
      isJsWhitespace c = true → c = ' ' := by
  intro l
  induction l with
  | nil => intro b h _; exact absurd h (List.not_mem_nil _)
  | cons d ds ih =>
    intro b h hws
    unfold collapseWsAux at h
    split at h <;> rename_i hd
    · split at h
      · exact ih true h hws
      · rcases List.mem_cons.1 h with h' | h'
        · exact h'
        · exact ih true h' hws
    · rcases List.mem_cons.1 h with h' | h'
      · subst h'
        rw [hws] at hd
        exact absurd rfl hd
      · exact ih false h' hws

/-- In skip mode the collapse starts with a non-whitespace character. -/
theorem collapseWsAux_true_head {c : Char} :
    ∀ l : List Char, (collapseWsAux true l).head? = some c →
      isJsWhitespace c = false := by
  intro l
  induction l with
  | nil => intro h; exact absurd h (by simp [collapseWsAux])
  | cons d ds ih =>
    intro h
    unfold collapseWsAux at h
    split at h <;> rename_i hd
    · exact ih (by simpa using h)
    · rw [List.head?_cons, Option.some_inj] at h
      subst h
      exact Bool.not_eq_true _ ▸ (by simpa using hd)

/-- The collapse output has no two adjacent whitespace characters. -/
theorem collapseWsAux_chain :
    ∀ (l : List Char) (b : Bool), (collapseWsAux b l).Chain'
      (fun a d => ¬(isJsWhitespace a = true ∧ isJsWhitespace d = true)) := by
  intro l
  induction l with
  | nil => intro b; simp [collapseWsAux]
  | cons d ds ih =>
    intro b
    unfold collapseWsAux
    split <;> rename_i hd
    · split
      · exact ih true
      · refine List.Chain'.cons' (ih true) ?_
        intro y hy
        intro hcon
        have := collapseWsAux_true_head ds hy
        rw [this] at hcon
        exact absurd hcon.2 (by simp)
    · refine List.Chain'.cons' (ih false) ?_
      intro y hy
      intro hcon
      exact hd hcon.1

/-- The collapse output is whitespace-normal. -/
theorem noWsRun_collapseWs (l : List Char) : NoWsRun (collapseWs l) :=
  ⟨fun _ hc hws => collapseWsAux_ws_space l false hc hws, collapseWsAux_chain l false⟩

/-- Whitespace-normality restricts to prefixes. -/
theorem NoWsRun.of_isPrefixOf {l l' : List Char} (h : NoWsRun l) (hp : l' <+: l) :
    NoWsRun l' := by
  obtain ⟨t, ht⟩ := hp
  subst ht
  exact ⟨fun c hc hws => h.1 c (List.mem_append_left _ hc) hws,
    (List.chain'_append.1 h.2).1⟩

/-- Whitespace-normality restricts to suffixes. -/
theorem NoWsRun.of_isSuffixOf {l l' : List Char} (h : NoWsRun l) (hp : l' <:+ l) :
    NoWsRun l' :=
  ⟨fun c hc hws => h.1 c (hp.sublist.mem hc) hws, h.2.suffix hp⟩

/-- On whitespace-normal input the collapse is the identity (in skip mode,
provided the head is not whitespace). -/
theorem collapseWsAux_eq_self :
    ∀ l : List Char, NoWsRun l →
      collapseWsAux false l = l
      ∧ ((∀ c, l.head? = some c → isJsWhitespace c = false) →
          collapseWsAux true l = l) := by
  intro l
  induction l with
  | nil => intro _; exact ⟨rfl, fun _ => rfl⟩
  | cons d ds ih =>
    intro h
    have hds : NoWsRun ds :=
      ⟨fun c hc hws => h.1 c (List.mem_cons_of_mem _ hc) hws, h.2.tail⟩
    rcases hdws : isJsWhitespace d with _ | _
    · have htail : collapseWsAux false ds = ds := (ih hds).1
      constructor
      · unfold collapseWsAux
        rw [if_neg (by rw [hdws]; exact Bool.false_ne_true)]
        rw [htail]
      · intro _
        unfold collapseWsAux
        rw [if_neg (by rw [hdws]; exact Bool.false_ne_true)]
        rw [htail]
    · have hd' : d = ' ' := h.1 d (List.mem_cons_self _ _) hdws
      have hhead : ∀ c, ds.head? = some c → isJsWhitespace c = false := by
        intro c hc
        match ds, hc with
        | c :: ds', rfl =>
          have := List.chain'_cons'.1 h.2
          have hrel := this.1 c rfl
          rcases hcw : isJsWhitespace c with _ | _
          · rfl
          · exact absurd ⟨hdws, hcw⟩ hrel
      have htail : collapseWsAux true ds = ds := (ih hds).2 hhead
      constructor
      · unfold collapseWsAux
        rw [if_pos (by rw [hdws])]
        rw [if_neg (by simp), htail, hd']
      · intro hhd
        have := hhd d rfl
        rw [hdws] at this
        exact absurd this (by simp)

/-- What survives `dropWhile` starts with a character failing the test. -/
theorem dropWhile_head_not {p : Char → Bool} :
    ∀ (l : List Char) (c : Char), (l.dropWhile p).head? = some c → p c = false := by
  intro l
  induction l with
  | nil => intro c h; exact absurd h (by simp)
  | cons d ds ih =>
    intro c h
    rw [List.dropWhile_cons] at h
    split at h
    · exact ih c h
    · rw [List.head?_cons, Option.some_inj] at h
      subst h
      rename_i hd
      exact Bool.not_eq_true _ ▸ hd

/-- A nonempty prefix shares the head of its extension. -/
theorem IsPrefix.head?_eq {l l' : List Char} {c : Char} (hp : l' <+: l)
    (h : l'.head? = some c) : l.head? = some c := by
  obtain ⟨t, ht⟩ := hp
  subst ht
  match l', h with
  | c :: _, rfl => rfl

/-- `rdropWhile` shortens a list only at its tail. -/
theorem isPrefixOf_rdropWhile (p : Char → Bool) (l : List Char) :
    l.rdropWhile p <+: l := by
  rw [List.rdropWhile]
  rw [← List.reverse_suffix]
  rw [List.reverse_reverse]
  exact List.dropWhile_suffix p

/-- The trimmed string starts with a non-whitespace character. -/
theorem trimChars_head_not {l : List Char} {c : Char}
    (h : (trimChars l).head? = some c) : isJsWhitespace c = false :=
  dropWhile_head_not l c
    (IsPrefix.head?_eq
      (isPrefixOf_rdropWhile isJsWhitespace (l.dropWhile isJsWhitespace)) h)

/-- Trimming is idempotent. -/
theorem trimChars_idem (l : List Char) : trimChars (trimChars l) = trimChars l := by
  have h1 : (trimChars l).dropWhile isJsWhitespace = trimChars l := by
    match hy : trimChars l with
    | [] => rfl
    | c :: t =>
      have hc : isJsWhitespace c = false := trimChars_head_not (by rw [hy]; rfl)
      rw [List.dropWhile_cons, if_neg (by rw [hc]; exact Bool.false_ne_true)]
  show (((trimChars l).dropWhile isJsWhitespace).rdropWhile isJsWhitespace) = trimChars l
  rw [h1]
  unfold trimChars
  exact List.rdropWhile_idempotent _ _

/-- Whitespace-normality survives trimming. -/
theorem noWsRun_trimChars {l : List Char} (h : NoWsRun l) : NoWsRun (trimChars l) :=
  (h.of_isSuffixOf (List.dropWhile_suffix _)).of_isPrefixOf
    (isPrefixOf_rdropWhile _ _)

/-- Trimming keeps only original characters. -/
theorem mem_trimChars {l : List Char} {c : Char} (h : c ∈ trimChars l) : c ∈ l :=
  (List.dropWhile_suffix _).sublist.mem
    ((isPrefixOf_rdropWhile _ _).sublist.mem h)

/-- On whitespace-normal input the collapse is the identity. -/
theorem collapseWs_eq_self {l : List Char} (h : NoWsRun l) : collapseWs l = l :=
  (collapseWsAux_eq_self l h).1

/-- Without newlines the newline collapse is the identity. -/
theorem collapseNewlinesF_eq_self :
    ∀ (fuel : Nat) (l : List Char), '\n' ∉ l → collapseNewlinesF fuel l = l := by
  intro fuel
  induction fuel with
  | zero => intro l _; rfl
  | succ n ih =>
    intro l h
    match l with
    | [] => rfl
    | c :: cs =>
      have hc : ¬c = '\n' := fun hcon => h (hcon ▸ List.mem_cons_self _ _)
      unfold collapseNewlinesF
      rw [if_neg hc]
      rw [ih cs (fun hcon => h (List.mem_cons_of_mem _ hcon))]

theorem collapseNewlines_eq_self {l : List Char} (h : '\n' ∉ l) :
    collapseNewlines l = l :=
  collapseNewlinesF_eq_self l.length l h

/-- The script-block regex cannot match except at a literal `<`. -/
theorem matchScriptLen_none {c : Char} {cs : List Char} (h : ¬c = '<') :
    matchScriptLen (c :: cs) = none := by
  simp only [matchScriptLen]
  rw [if_neg h]

/-- Without `<` the script stripper is the identity. -/
theorem removeScriptsF_eq_self :
    ∀ (fuel : Nat) (l : List Char), '<' ∉ l → removeScriptsF fuel l = l := by
  intro fuel
  induction fuel with
  | zero => intro l _; rfl
  | succ n ih =>
    intro l h
    match l with
    | [] => rfl
    | c :: cs =>
      have hc : ¬c = '<' := fun hcon => h (hcon ▸ List.mem_cons_self _ _)
      unfold removeScriptsF
      rw [matchScriptLen_none hc]
      rw [ih cs (fun hcon => h (List.mem_cons_of_mem _ hcon))]

theorem removeScripts_eq_self {l : List Char} (h : '<' ∉ l) :
    removeScripts l = l :=
  removeScriptsF_eq_self l.length l h

/-- Without `<` the tag stripper is the identity. -/
theorem removeTagsF_eq_self :
    ∀ (fuel : Nat) (l : List Char), '<' ∉ l → removeTagsF fuel l = l := by
  intro fuel
  induction fuel with
  | zero => intro l _; rfl
  | succ n ih =>
    intro l h
    match l with
    | [] => rfl
    | c :: cs =>
      have hc : ¬c = '<' := fun hcon => h (hcon ▸ List.mem_cons_self _ _)
      unfold removeTagsF
      rw [if_neg hc]
      rw [ih cs (fun hcon => h (List.mem_cons_of_mem _ hcon))]

theorem removeTags_eq_self {l : List Char} (h : '<' ∉ l) : removeTags l = l :=
  removeTagsF_eq_self l.length l h

/-- Characters of the collapsed-and-trimmed core of `sanitizeMessage`. -/
theorem sanitize_core_mem {s : String} {c : Char}
    (h : c ∈ trimChars (collapseWs (s.data.filter (fun c => c ≠ '\x00')))) :
    c = ' ' ∨ c ∈ s.data := by
  have h1 := mem_trimChars h
  rcases collapseWsAux_mem _ false h1 with h2 | h2
  · exact Or.inl h2
  · exact Or.inr (List.mem_of_mem_filter h2)

/-- `sanitizeMessage` computed on a tag-free input: the script and tag
strippers and the newline collapse are all the identity on the collapsed,
trimmed core. -/
theorem sanitizeMessage_eq_core {s : String} (hs : ¬s = "") (hlt : '<' ∉ s.data) :
    sanitizeMessage s =
      ⟨trimChars (collapseWs (s.data.filter (fun c => c ≠ '\x00')))⟩ := by
  have hN : NoWsRun (trimChars (collapseWs (s.data.filter (fun c => c ≠ '\x00')))) :=
    noWsRun_trimChars (noWsRun_collapseWs _)
  have hnl : '\n' ∉ trimChars (collapseWs (s.data.filter (fun c => c ≠ '\x00'))) := by
    intro hmem
    have := hN.1 '\n' hmem (by decide)
    exact absurd this (by decide)
  have hlt' : '<' ∉ trimChars (collapseWs (s.data.filter (fun c => c ≠ '\x00'))) := by
    intro hmem
    rcases sanitize_core_mem hmem with h | h
    · exact absurd h (by decide)
    · exact hlt h
  unfold sanitizeMessage
  rw [if_neg hs]
  rw [collapseNewlines_eq_self hnl, removeScripts_eq_self hlt',
    removeTags_eq_self hlt']

/-- C9 as stated is refuted: stripping the tag of the valid message
`"a <b> b"` happens after whitespace collapsing and leaves the double space
`"a  b"`, which a second sanitization collapses to `"a b"`. -/
theorem C9_sanitizeMessage_not_idempotent :
    (validateMessage (some "a <b> b") defaultMessageOptions).isValid = true
    ∧ sanitizeMessage (sanitizeMessage "a <b> b") ≠ sanitizeMessage "a <b> b" := by
  constructor
  · decide
  · decide

/-- C9 (amended). For every message accepted by `validateMessage` that
contains no `<` character — so that tag and script stripping have nothing
to remove — `sanitizeMessage` is idempotent. (For valid messages containing
tags it is not: tag removal runs after whitespace collapsing and can leave
adjacent spaces, as the counterexample shows.) -/
theorem C9_sanitizeMessage_idempotent_spec :
    ∀ s : String,
      (validateMessage (some s) defaultMessageOptions).isValid = true →
      '<' ∉ s.data →
      sanitizeMessage (sanitizeMessage s) = sanitizeMessage s := by
  intro s _ hlt
  by_cases hs : s = ""
  · subst hs
    rfl
  · rw [sanitizeMessage_eq_core hs hlt]
    set y := trimChars (collapseWs (s.data.filter (fun c => c ≠ '\x00'))) with hy
    have hN : NoWsRun y := noWsRun_trimChars (noWsRun_collapseWs _)
    by_cases hye : (⟨y⟩ : String) = ""
    · rw [hye]
      rfl
    · have hdata : (⟨y⟩ : String).data = y := rfl
      have hfil : y.filter (fun c => c ≠ '\x00') = y := by
        rw [List.filter_eq_self]
        intro c hc
        have : ¬c = '\x00' := by
          intro hcon
          subst hcon
          rcases sanitize_core_mem (hy ▸ hc) with h | h
          · exact absurd h (by decide)
          · have h1 := mem_trimChars (hy ▸ hc)
            rcases collapseWsAux_mem _ false h1 with h2 | h2
            · exact absurd h2 (by decide)
            · rw [List.mem_filter] at h2
              exact absurd h2.2 (by decide)
        simpa using this
      have hcol : collapseWs y = y := collapseWs_eq_self hN
      have htrim : trimChars y = y := hy ▸ trimChars_idem _
      have hnl : '\n' ∉ y := by
        intro hmem
        have := hN.1 '\n' hmem (by decide)
        exact absurd this (by decide)
      have hlt' : '<' ∉ y := by
        intro hmem
        rcases sanitize_core_mem (hy ▸ hmem) with h | h
        · exact absurd h (by decide)
        · exact hlt h
      unfold sanitizeMessage
      rw [if_neg hye, hdata, hfil, hcol, htrim, collapseNewlines_eq_self hnl,
        removeScripts_eq_self hlt', removeTags_eq_self hlt']

/-- Witness for C9: a valid tag-free message with irregular whitespace is
sanitized idempotently. -/
theorem C9_sanitizeMessage_idempotent_spec_witness :
    sanitizeMessage (sanitizeMessage "hello  world") = sanitizeMessage "hello  world" :=
  C9_sanitizeMessage_idempotent_spec "hello  world" (by decide) (by decide)

/-- `createDeliveryReceipts` leaves the messages table unchanged. -/
theorem createDeliveryReceipts_messages (db : Store)
    (messageId roomId senderId : String) (now : Int) :
    (createDeliveryReceipts db messageId roomId senderId now).messages =
      db.messages := by
  rw [createDeliveryReceipts_eq]
  split <;> rfl

/-- Every active non-sender member of the room gets a receipt row for the
message after `createDeliveryReceipts`. -/
theorem createDeliveryReceipts_covers {db : Store}
    {messageId roomId senderId : String} {now : Int} {m : MemberRow}
    (hm : m ∈ db.roomMembers) (h1 : m.room_id = roomId)
    (h2 : m.member_id ≠ senderId) (h3 : m.deleted_at = none) :
    ∃ row ∈ (createDeliveryReceipts db messageId roomId senderId now).receipts,
      row.message_id = messageId ∧ row.recipient_id = m.member_id := by
  have hrec : m.member_id ∈ deliveryRecipients db roomId senderId :=
    mem_deliveryRecipients hm h1 h2 h3
  have hne : ¬deliveryRecipients db roomId senderId = [] := by
    intro hcon
    rw [hcon] at hrec
    exact absurd hrec (List.not_mem_nil _)
  rw [createDeliveryReceipts_eq, if_neg hne]
  obtain ⟨x, hx, hx1, hx2⟩ := createManySkipDup_pair_present
    (y := { message_id := messageId, recipient_id := m.member_id,
            delivered_at := now, read_at := none })
    (deliveryBatch db messageId roomId senderId now) db.receipts
    (by
      unfold deliveryBatch
      exact List.mem_map.2 ⟨m.member_id, hrec, rfl⟩)
  exact ⟨x, hx, hx1, hx2⟩

/-- Inversion of the send_message check cascade: a success pins the target
room to the socket's current room, requires an active membership, and
carries the sanitized content. -/
theorem sendMessageChecks_ok_inv {db : Store} {sock : SocketCtx} {user : AuthUser}
    {data : Option SendData} {r sc : String}
    (h : sendMessageChecks db sock user data = Except.ok (r, sc)) :
    (∃ d, data = some d ∧ d.roomId = some r) ∧ sock.currentRoomId = some r ∧
      verifyRoomMembership db user.id r = true := by
  match data with
  | none => simp [sendMessageChecks] at h
  | some d =>
    match hd : d.roomId with
    | none =>
      rw [show sendMessageChecks db sock user (some d) =
        Except.error (SendEmit.messageError "Room ID is required" [] none none) from by
          simp [sendMessageChecks, hd]] at h
      exact absurd h (by simp)
    | some r' =>
      unfold sendMessageChecks at h
      simp only [hd] at h
      split_ifs at h with h1 h2 h3 h4 h5 h6
      rw [Except.ok.injEq, Prod.mk.injEq] at h
      obtain ⟨hr, -⟩ := h
      subst hr
      refine ⟨⟨d, rfl, hd⟩, ?_, ?_⟩
      · rw [not_not] at h5
        exact h5
      · rcases hv : verifyRoomMembership db user.id r' with _ | _
        · rw [hv] at h6
          exact absurd rfl h6
        · rfl

/-- A failed send_message check always produces a `message_error`
emission. -/
theorem sendMessageChecks_error_shape {db : Store} {sock : SocketCtx}
    {user : AuthUser} {data : Option SendData} {e : SendEmit}
    (h : sendMessageChecks db sock user data = Except.error e) :
    ∃ msg errs ra rem, e = SendEmit.messageError msg errs ra rem := by
  match data with
  | none =>
    rw [show sendMessageChecks db sock user none =
      Except.error (SendEmit.messageError "Room ID is required" [] none none) from rfl] at h
    rw [Except.error.injEq] at h
    exact ⟨_, _, _, _, h.symm⟩
  | some d =>
    match hd : d.roomId with
    | none =>
      rw [show sendMessageChecks db sock user (some d) =
        Except.error (SendEmit.messageError "Room ID is required" [] none none) from by
          simp [sendMessageChecks, hd]] at h
      rw [Except.error.injEq] at h
      exact ⟨_, _, _, _, h.symm⟩
    | some r' =>
      unfold sendMessageChecks at h
      simp only [hd] at h
      split_ifs at h <;>
        (rw [Except.error.injEq] at h; exact ⟨_, _, _, _, h.symm⟩)

/-- The check cascade on a fully valid request succeeds with the validated
room and sanitized content. -/
theorem sendMessageChecks_ok_of {db : Store} {sock : SocketCtx} {user : AuthUser}
    {d : SendData} {r c : String}
    (hroom : d.roomId = some r) (hcont : d.content = some c)
    (hrv : (validateRoomId (some r)).isValid = true)
    (hmv : (validateMessage (some c) defaultMessageOptions).isValid = true)
    (hsan : ¬sanitizeMessage c = "")
    (hcur : sock.currentRoomId = some r)
    (hmem : verifyRoomMembership db user.id r = true) :
    sendMessageChecks db sock user (some d) = Except.ok (r, sanitizeMessage c) := by
  have hrne : ¬r = "" := by
    obtain ⟨s, hs, hne, -, -⟩ := (validateRoomId_isValid_characterization (some r)).1 hrv
    rw [Option.some_inj] at hs
    subst hs
    exact hne
  unfold sendMessageChecks
  simp only [hroom, hcont]
  rw [if_neg hrne]
  rw [if_neg (by rw [hrv]; simp)]
  rw [if_neg (by rw [hmv]; simp)]
  show (if sanitizeMessage c = "" then _ else _) = _
  rw [if_neg hsan]
  rw [if_neg (by rw [hcur]; simp)]
  rw [if_neg (by rw [hmem]; simp)]
  rfl

/-- C2. The send_message handler: (A) a message row is persisted only when
the socket's current room equals the target room and the sender holds an
active store-level membership there; (B) when the rate-limit gate and all
checks pass and the sender row exists, the sanitized content is persisted
as a message row, a delivery receipt exists for every active non-sender
member of the room, and the persisted message with the sender identity is
broadcast as `receive_message` to the room channel — reaching every
subscriber of the room, the sender's socket included whenever it is
subscribed; (C) every invocation either emits a single `message_error`
leaving the store untouched or broadcasts a single `receive_message`. -/
theorem C2_handleSendMessage_spec :
    ∀ (db : Store) (rl : RLState) (sock : SocketCtx) (user : AuthUser)
      (data : Option SendData) (now : Int) (nonce nonce2 newId : String),
      ((handleSendMessage db rl sock user data now nonce nonce2 newId).1.messages ≠
          db.messages →
        ∃ d r, data = some d ∧ d.roomId = some r ∧ sock.currentRoomId = some r ∧
          verifyRoomMembership db user.id r = true)
      ∧ (∀ (d : SendData) (r c : String) (senderRow : UserRow),
          data = some d → d.roomId = some r → d.content = some c →
          (checkRateLimit rl messageRateLimitConfig now nonce nonce2).1.allowed = true →
          (validateRoomId (some r)).isValid = true →
          (validateMessage (some c) defaultMessageOptions).isValid = true →
          ¬sanitizeMessage c = "" →
          sock.currentRoomId = some r →
          verifyRoomMembership db user.id r = true →
          db.users.find? (fun u => u.id = user.id) = some senderRow →
          ((handleSendMessage db rl sock user data now nonce nonce2 newId).1.messages =
              db.messages ++
                [{ id := newId, room_id := r, sender_id := user.id,
                   content := sanitizeMessage c, created_at := now,
                   deleted_at := none }]
            ∧ (∀ m ∈ db.roomMembers, m.room_id = r → m.member_id ≠ user.id →
                m.deleted_at = none →
                ∃ row ∈ (handleSendMessage db rl sock user data now nonce nonce2
                    newId).1.receipts,
                  row.message_id = newId ∧ row.recipient_id = m.member_id)
            ∧ (handleSendMessage db rl sock user data now nonce nonce2 newId).2.2 =
                [SendEmit.receiveMessage r newId r (sanitizeMessage c) now senderRow]
            ∧ (∀ subscribers : String → List String, sock.sockId ∈ subscribers r →
                sock.sockId ∈ emitRecipients sock.sockId subscribers
                  (SendEmit.receiveMessage r newId r (sanitizeMessage c) now
                    senderRow))))
      ∧ ((∃ msg errs ra rem,
            (handleSendMessage db rl sock user data now nonce nonce2 newId).2.2 =
              [SendEmit.messageError msg errs ra rem]
            ∧ (handleSendMessage db rl sock user data now nonce nonce2 newId).1 = db)
         ∨ (∃ r mid rid cc ts srow,
            (handleSendMessage db rl sock user data now nonce nonce2 newId).2.2 =
              [SendEmit.receiveMessage r mid rid cc ts srow])) := by
  intro db rl sock user data now nonce nonce2 newId
  refine ⟨?_, ?_, ?_⟩
  · -- (A)
    intro hne
    simp only [handleSendMessage] at hne
    rcases hal : (checkRateLimit rl messageRateLimitConfig now nonce nonce2).1.allowed
      with _ | _
    · rw [hal] at hne
      simp at hne
    · rw [hal] at hne
      simp only [Bool.not_true, Bool.false_eq_true, if_false] at hne
      rcases hc : sendMessageChecks db sock user data with e | rs
      · rw [hc] at hne
        simp at hne
      · rw [hc] at hne
        obtain ⟨r, sc⟩ := rs
        obtain ⟨⟨d, hd, hdr⟩, hcur, hmem⟩ := sendMessageChecks_ok_inv hc
        exact ⟨d, r, hd, hdr, hcur, hmem⟩
  · -- (B)
    intro d r c senderRow hd hdr hdc hal hrv hmv hsan hcur hmem hfind
    subst hd
    have hchecks := sendMessageChecks_ok_of hdr hdc hrv hmv hsan hcur hmem
    have hred : handleSendMessage db rl sock user (some d) now nonce nonce2 newId =
        (createDeliveryReceipts
          { db with messages := db.messages ++
              [{ id := newId, room_id := r, sender_id := user.id,
                 content := sanitizeMessage c, created_at := now,
                 deleted_at := none }] } newId r user.id now,
         (checkRateLimit rl messageRateLimitConfig now nonce nonce2).2,
         [SendEmit.receiveMessage r newId r (sanitizeMessage c) now senderRow]) := by
      simp only [handleSendMessage, hal, hchecks, hfind, Bool.not_true,
        Bool.false_eq_true, if_false]
    refine ⟨?_, ?_, ?_, ?_⟩
    · rw [hred]
      rw [createDeliveryReceipts_messages]
    · intro m hm hmr hms hmd
      rw [hred]
      exact createDeliveryReceipts_covers hm hmr hms hmd
    · rw [hred]
    · intro subscribers hsub
      exact hsub
  · -- (C)
    rcases hal : (checkRateLimit rl messageRateLimitConfig now nonce nonce2).1.allowed
      with _ | _
    · refine Or.inl ⟨"Rate limit exceeded. You can send " ++
          toString messageRateLimitConfig.maxRequests ++ " messages per " ++
          toString messageRateLimitConfig.windowSeconds ++ " seconds.", [],
        (checkRateLimit rl messageRateLimitConfig now nonce nonce2).1.retryAfter,
        some (checkRateLimit rl messageRateLimitConfig now nonce nonce2).1.remaining,
        ?_, ?_⟩ <;>
        simp only [handleSendMessage, hal, Bool.not_false, if_true]
    · rcases hc : sendMessageChecks db sock user data with e | rs
      · obtain ⟨m4, e4, r4, rem4, he⟩ := sendMessageChecks_error_shape hc
        subst he
        refine Or.inl ⟨m4, e4, r4, rem4, ?_, ?_⟩ <;>
          simp only [handleSendMessage, hal, hc, Bool.not_true,
            Bool.false_eq_true, if_false]
      · obtain ⟨r, sc⟩ := rs
        rcases hf : db.users.find? (fun u => u.id = user.id) with _ | srow
        · refine Or.inl ⟨"Failed to send message", [], none, none, ?_, ?_⟩ <;>
            simp only [handleSendMessage, hal, hc, hf, Bool.not_true,
              Bool.false_eq_true, if_false]
        · refine Or.inr ⟨r, newId, r, sc, now, srow, ?_⟩
          simp only [handleSendMessage, hal, hc, hf, Bool.not_true,
            Bool.false_eq_true, if_false]

/-- Witness for C2: a member socket attached to room `room001` sends
`"hi bob"`; the specification yields the persisted row and the
`receive_message` broadcast carrying the sender identity. -/
theorem C2_handleSendMessage_spec_witness :
    (handleSendMessage
        { users := [{ id := "alice", username := "al", first_name := "A",
                      last_name := "L" }],
          roomMembers := [
            { room_id := "room001", member_id := "alice", deleted_at := none },
            { room_id := "room001", member_id := "bob", deleted_at := none }],
          messages := [], receipts := [] }
        emptyRL { sockId := "s1", currentRoomId := some "room001" }
        { id := "alice", email := "a@x" }
        (some { roomId := some "room001", content := some "hi bob" })
        0 "a" "b" "msg0001").1.messages =
      [{ id := "msg0001", room_id := "room001", sender_id := "alice",
         content := sanitizeMessage "hi bob", created_at := 0,
         deleted_at := none }]
    ∧ (handleSendMessage
        { users := [{ id := "alice", username := "al", first_name := "A",
                      last_name := "L" }],
          roomMembers := [
            { room_id := "room001", member_id := "alice", deleted_at := none },
            { room_id := "room001", member_id := "bob", deleted_at := none }],
          messages := [], receipts := [] }
        emptyRL { sockId := "s1", currentRoomId := some "room001" }
        { id := "alice", email := "a@x" }
        (some { roomId := some "room001", content := some "hi bob" })
        0 "a" "b" "msg0001").2.2 =
      [SendEmit.receiveMessage "room001" "msg0001" "room001"
        (sanitizeMessage "hi bob") 0
        { id := "alice", username := "al", first_name := "A", last_name := "L" }] := by
  have h := (C2_handleSendMessage_spec
      { users := [{ id := "alice", username := "al", first_name := "A",
                    last_name := "L" }],
        roomMembers := [
          { room_id := "room001", member_id := "alice", deleted_at := none },
          { room_id := "room001", member_id := "bob", deleted_at := none }],
        messages := [], receipts := [] }
      emptyRL { sockId := "s1", currentRoomId := some "room001" }
      { id := "alice", email := "a@x" }
      (some { roomId := some "room001", content := some "hi bob" })
      0 "a" "b" "msg0001").2.1
    { roomId := some "room001", content := some "hi bob" }
    "room001" "hi bob"
    { id := "alice", username := "al", first_name := "A", last_name := "L" }
    rfl rfl rfl (by decide) (by decide) (by decide) (by decide) rfl (by decide)
    (by decide)
  exact ⟨h.1, h.2.2.1⟩
